import Mathlib

/-!
Verification of the FTL configuration subsystem (legacy `pihole-FTL.conf`
reader, TOML-style structured reader/writer and facade queries).

Shallow embedding conventions:
* C strings are `List Char`, one `Char` per byte, never containing the
  terminating NUL (a C string cannot contain NUL).
* Machine integers are `Nat`/`Int`; wrap-around is written explicitly with
  `% 2 ^ w` where the C code can overflow or narrow.
* A file is a `List (List Char)`: the lines delivered by `getline`,
  including their trailing newline character.
* Fallible routines return `Option`.
-/

namespace FTL

/-! ## C character classification (C locale, as used by the source) -/

/-- C `isprint` in the C locale: printable ASCII, `0x20 ..= 0x7e`. -/
def isprintC (c : Char) : Bool := 32 ≤ c.toNat && c.toNat ≤ 126

/-- C `isdigit`. -/
def isdigitC (c : Char) : Bool := 48 ≤ c.toNat && c.toNat ≤ 57

/-- C `isxdigit`. -/
def isxdigitC (c : Char) : Bool :=
  isdigitC c || (97 ≤ c.toNat && c.toNat ≤ 102) || (65 ≤ c.toNat && c.toNat ≤ 70)

/-- C `isspace` in the C locale: space, `\t`, `\n`, `\v`, `\f`, `\r`. -/
def isspaceC (c : Char) : Bool :=
  c.toNat = 32 || (9 ≤ c.toNat && c.toNat ≤ 13)

/-- C `tolower` in the C locale (ASCII letters only). -/
def tolowerC (c : Char) : Char :=
  if 65 ≤ c.toNat && c.toNat ≤ 90 then Char.ofNat (c.toNat + 32) else c

/-- C `strcasecmp(a, b) == 0`: case-insensitive byte-wise equality. -/
def strcaseeq (a b : List Char) : Bool :=
  a.map tolowerC == b.map tolowerC

/-- `trim_whitespace`: strip leading and trailing C whitespace in place. -/
def trimWS (s : List Char) : List Char :=
  ((s.dropWhile isspaceC).reverse.dropWhile isspaceC).reverse

/-! ## Decimal digit strings (as printed by `fprintf` `%i`/`%u`/`%li`/`%lu`) -/

/-- The ASCII character of the decimal digit `d` (`d < 10`). -/
def decDigitChar (d : Nat) : Char := Char.ofNat (48 + d)

/-- Numeric value of an ASCII decimal digit character. -/
def decValChar (c : Char) : Nat := c.toNat - 48

/-- Decimal rendering of a natural number, most significant digit first,
no leading zeros (`n = 0` renders as `"0"`), exactly as `printf` does. -/
def decChars (n : Nat) : List Char :=
  if h : n < 10 then [decDigitChar n]
  else decChars (n / 10) ++ [decDigitChar (n % 10)]
decreasing_by exact Nat.div_lt_self (by omega) (by omega)

/-- Fold a digit-character list back into the natural number it denotes. -/
def decOfChars (cs : List Char) : Nat :=
  cs.foldl (fun a c => a * 10 + decValChar c) 0

theorem decValChar_decDigitChar {d : Nat} (h : d < 10) :
    decValChar (decDigitChar d) = d := by
  interval_cases d <;> decide

theorem isdigitC_decDigitChar {d : Nat} (h : d < 10) :
    isdigitC (decDigitChar d) = true := by
  interval_cases d <;> decide

theorem decOfChars_append_digit (cs : List Char) (c : Char) :
    decOfChars (cs ++ [c]) = decOfChars cs * 10 + decValChar c := by
  simp [decOfChars, List.foldl_append]

/-- Decimal print/parse round trip on naturals. -/
theorem decOfChars_decChars (n : Nat) : decOfChars (decChars n) = n := by
  induction n using Nat.strong_induction_on with
  | _ n ih =>
    rw [decChars]
    split
    · next hlt => simp [decOfChars, decValChar_decDigitChar hlt]
    · next hge =>
      rw [decOfChars_append_digit, ih (n / 10) (Nat.div_lt_self (by omega) (by omega)),
          decValChar_decDigitChar (Nat.mod_lt _ (by omega))]
      omega

theorem decChars_ne_nil (n : Nat) : decChars n ≠ [] := by
  rw [decChars]; split <;> simp

/-- Every character printed by `decChars` is a decimal digit. -/
theorem decChars_all_digits (n : Nat) : (decChars n).all isdigitC = true := by
  induction n using Nat.strong_induction_on with
  | _ n ih =>
    rw [decChars]
    split
    · next hlt => simp [isdigitC_decDigitChar hlt]
    · next hge =>
      have h1 := ih (n / 10) (Nat.div_lt_self (by omega) (by omega))
      have h2 : isdigitC (decDigitChar (n % 10)) = true :=
        isdigitC_decDigitChar (Nat.mod_lt _ (by omega))
      simp [List.all_append, h1, h2]

/-- A positive number never prints with a leading zero. -/
theorem decChars_head_ne_zero {n : Nat} (h : 0 < n) :
    (decChars n).head? ≠ some '0' := by
  induction n using Nat.strong_induction_on with
  | _ n ih =>
    rw [decChars]
    split
    · next hlt =>
      intro hc
      simp only [List.head?_cons, Option.some.injEq] at hc
      have : n = 0 := by
        by_contra hn
        have h10 : decValChar (decDigitChar n) = n := decValChar_decDigitChar hlt
        rw [hc] at h10
        simp [decValChar] at h10
        omega
      omega
    · next hge =>
      have hne := decChars_ne_nil (n / 10)
      cases hd : decChars (n / 10) with
      | nil => exact absurd hd hne
      | cons a as =>
        have := ih (n / 10) (Nat.div_lt_self (by omega) (by omega))
              (Nat.div_pos (by omega) (by omega))
        rw [hd] at this
        simpa using this

/-- `n < 10 ^ k` prints in at most `k` digits (used for dotted-quad bounds). -/
theorem decChars_length_le {n k : Nat} (hk : 0 < k) (h : n < 10 ^ k) :
    (decChars n).length ≤ k := by
  induction k generalizing n with
  | zero => omega
  | succ k ih =>
    rw [decChars]
    split
    · simpa using hk
    · next hge =>
      have hk0 : 0 < k := by
        rcases Nat.eq_zero_or_pos k with h0 | h0
        · subst h0; simp at h; omega
        · exact h0
      have hdiv : n / 10 < 10 ^ k := by
        have : n < 10 * 10 ^ k := by
          calc n < 10 ^ (k + 1) := h
          _ = 10 * 10 ^ k := by ring
        omega
      have := ih hk0 hdiv
      simp only [List.length_append, List.length_cons, List.length_nil]
      omega

/-! ## Hexadecimal digit strings (as printed by `%x` / `%02x`) -/

/-- Lowercase hex digit character of `d < 16`. -/
def hexDigitChar (d : Nat) : Char :=
  if d < 10 then Char.ofNat (48 + d) else Char.ofNat (97 + d - 10)

/-- Numeric value of a hex digit character (either case). -/
def hexValChar (c : Char) : Nat :=
  if 97 ≤ c.toNat then c.toNat - 87
  else if 65 ≤ c.toNat then c.toNat - 55
  else c.toNat - 48

/-- Hexadecimal rendering without leading zeros (`printf` `%x`). -/
def hexChars (n : Nat) : List Char :=
  if h : n < 16 then [hexDigitChar n]
  else hexChars (n / 16) ++ [hexDigitChar (n % 16)]
decreasing_by exact Nat.div_lt_self (by omega) (by omega)

/-- Fold a hex-digit-character list back into the natural number it denotes. -/
def hexOfChars (cs : List Char) : Nat :=
  cs.foldl (fun a c => a * 16 + hexValChar c) 0

theorem hexValChar_hexDigitChar {d : Nat} (h : d < 16) :
    hexValChar (hexDigitChar d) = d := by
  interval_cases d <;> decide

theorem isxdigitC_hexDigitChar {d : Nat} (h : d < 16) :
    isxdigitC (hexDigitChar d) = true := by
  interval_cases d <;> decide

theorem hexOfChars_append_digit (cs : List Char) (c : Char) :
    hexOfChars (cs ++ [c]) = hexOfChars cs * 16 + hexValChar c := by
  simp [hexOfChars, List.foldl_append]

/-- Hexadecimal print/parse round trip on naturals. -/
theorem hexOfChars_hexChars (n : Nat) : hexOfChars (hexChars n) = n := by
  induction n using Nat.strong_induction_on with
  | _ n ih =>
    rw [hexChars]
    split
    · next hlt => simp [hexOfChars, hexValChar_hexDigitChar hlt]
    · next hge =>
      rw [hexOfChars_append_digit, ih (n / 16) (Nat.div_lt_self (by omega) (by omega)),
          hexValChar_hexDigitChar (Nat.mod_lt _ (by omega))]
      omega

theorem hexChars_ne_nil (n : Nat) : hexChars n ≠ [] := by
  rw [hexChars]; split <;> simp

/-- Every character printed by `hexChars` is a hex digit. -/
theorem hexChars_all_digits (n : Nat) : (hexChars n).all isxdigitC = true := by
  induction n using Nat.strong_induction_on with
  | _ n ih =>
    rw [hexChars]
    split
    · next hlt => simp [isxdigitC_hexDigitChar hlt]
    · next hge =>
      have h1 := ih (n / 16) (Nat.div_lt_self (by omega) (by omega))
      have h2 : isxdigitC (hexDigitChar (n % 16)) = true :=
        isxdigitC_hexDigitChar (Nat.mod_lt _ (by omega))
      simp [List.all_append, h1, h2]

/-- `n < 16 ^ k` prints in at most `k` hex digits (used for colon-hex groups). -/
theorem hexChars_length_le {n k : Nat} (hk : 0 < k) (h : n < 16 ^ k) :
    (hexChars n).length ≤ k := by
  induction k generalizing n with
  | zero => omega
  | succ k ih =>
    rw [hexChars]
    split
    · simpa using hk
    · next hge =>
      have hk0 : 0 < k := by
        rcases Nat.eq_zero_or_pos k with h0 | h0
        · subst h0; simp at h; omega
        · exact h0
      have hdiv : n / 16 < 16 ^ k := by
        have : n < 16 * 16 ^ k := by
          calc n < 16 ^ (k + 1) := h
          _ = 16 * 16 ^ k := by ring
        omega
      have := ih hk0 hdiv
      simp only [List.length_append, List.length_cons, List.length_nil]
      omega

/-! ## `printTOMLstring` (src/src/config/toml_helper.c, lines 34-81)

The C routine writes characters to a `FILE*`; the embedding returns the
emitted byte sequence as a `List Char`. -/

/-- The per-character test of both loops:
`isprint(ch) && ch != '"' && ch != '\\'`. -/
def okTOMLchar (c : Char) : Bool :=
  isprintC c && !(c == '"') && !(c == '\\')

/-- The escape sequence emitted by the slow loop's `switch` for a character
that failed `okTOMLchar` (cases `0x08`, `0x09`, `0x0a`, `0x0c`, `0x0d`,
`'"'`, `'\\'`, and the `\0xHH` default with `ch & 0xff`). -/
def escSeq (c : Char) : List Char :=
  if c.toNat = 8 then ['\\', 'b']
  else if c.toNat = 9 then ['\\', 't']
  else if c.toNat = 10 then ['\\', 'n']
  else if c.toNat = 12 then ['\\', 'f']
  else if c.toNat = 13 then ['\\', 'r']
  else if c == '"' then ['\\', '"']
  else if c == '\\' then ['\\', '\\']
  else ['\\', '0', 'x',
        hexDigitChar (c.toNat % 256 / 16), hexDigitChar (c.toNat % 256 % 16)]

/-- Body of the character-by-character escaping loop (between the two
surrounding quote characters). -/
def slowBody : List Char → List Char
  | [] => []
  | c :: rest => (if okTOMLchar c then [c] else escSeq c) ++ slowBody rest

/-- `printTOMLstring`: if every character passes `okTOMLchar`, print the
string verbatim inside quotes (fast path); otherwise run the escaping loop
(slow path).  A NULL pointer is substituted by the empty string, which the
`List Char` model represents as `[]` directly. -/
def printTOMLstring (s : List Char) : List Char :=
  if s.all okTOMLchar then '"' :: (s ++ ['"'])
  else '"' :: (slowBody s ++ ['"'])

/-- On an all-`okTOMLchar` string the slow loop copies every byte. -/
theorem slowBody_of_ok {s : List Char} (h : s.all okTOMLchar = true) :
    slowBody s = s := by
  induction s with
  | nil => rfl
  | cons c rest ih =>
    simp only [List.all_cons, Bool.and_eq_true] at h
    simp [slowBody, h.1, ih h.2]

/-! ## TOML values

Modelled from the spec: the structured-format parser itself (the vendored
`tomlc99` library) is code of this repository that is not under `src/`; the
spec describes the structured file as a "`.toml`-style nested-table
document" with typed boolean/integer/string extraction.  The model below
covers exactly the syntactic categories the writer emits: bare booleans,
decimal integers (64-bit, optional sign, no leading zeros) and basic
(double-quoted) strings with the standard escape set. -/

/-- A decoded TOML leaf value, as extracted by `toml_bool_in`,
`toml_int_in` or `toml_string_in`. -/
inductive TomlDatum
  | boolean : Bool → TomlDatum
  | integer : Int → TomlDatum
  | string : List Char → TomlDatum
deriving DecidableEq

/-- Unescape one basic-string escape character (after a backslash).
The writer never emits `\uXXXX`/`\UXXXXXXXX`, so those are omitted; every
unlisted escape (such as the writer's `\0xHH`) is a syntax error. -/
def bsUnesc (e : Char) : Option Char :=
  if e == 'b' then some (Char.ofNat 8)
  else if e == 't' then some (Char.ofNat 9)
  else if e == 'n' then some (Char.ofNat 10)
  else if e == 'f' then some (Char.ofNat 12)
  else if e == 'r' then some (Char.ofNat 13)
  else if e == '"' then some '"'
  else if e == '\\' then some '\\'
  else none

/-- May a character appear unescaped in a single-line basic string?
Control characters, `"` and `\` may not. -/
def bsLiteralOK (c : Char) : Bool :=
  (32 ≤ c.toNat && !(c == '"') && !(c == '\\') && !(c.toNat == 127))
    || 128 ≤ c.toNat

/-- Scan the inside of a basic string up to the closing quote; returns the
decoded content and the remaining input, or `none` on a syntax error. -/
def bsLoop : List Char → Option (List Char × List Char)
  | [] => none
  | c :: rest =>
    if c == '"' then some ([], rest)
    else if c == '\\' then
      match rest with
      | [] => none
      | e :: rest2 =>
        match bsUnesc e with
        | none => none
        | some d =>
          match bsLoop rest2 with
          | none => none
          | some (content, rem) => some (d :: content, rem)
    else if bsLiteralOK c then
      match bsLoop rest with
      | none => none
      | some (content, rem) => some (c :: content, rem)
    else none

/-- Split an optional leading sign off a TOML integer literal. -/
def splitSign : List Char → Bool × List Char
  | '-' :: rest => (true, rest)
  | '+' :: rest => (false, rest)
  | other => (false, other)

/-- Digit part of a TOML integer literal: at least one digit, no leading
zero on a multi-digit number, value within `int64_t`. -/
def tomlIntAux (neg : Bool) (ds : List Char) : Option Int :=
  if ds == [] then none
  else if !ds.all isdigitC then none
  else if decide (1 < ds.length) && ds.head? == some '0' then none
  else
    let v : Int := if neg then -(decOfChars ds : Int) else (decOfChars ds : Int)
    if -(2 ^ 63) ≤ v ∧ v ≤ 2 ^ 63 - 1 then some v else none

/-- Parse a TOML decimal integer literal: optional sign, then digits. -/
def tomlIntChars (cs : List Char) : Option Int :=
  tomlIntAux (splitSign cs).1 (splitSign cs).2

/-- Parse one TOML leaf value of the shapes the writer emits. -/
def parseTomlValue (cs : List Char) : Option TomlDatum :=
  if cs == ['t', 'r', 'u', 'e'] then some (.boolean true)
  else if cs == ['f', 'a', 'l', 's', 'e'] then some (.boolean false)
  else if cs.head? == some '"' then
    match bsLoop cs.tail with
    | some (content, []) => some (.string content)
    | _ => none
  else (tomlIntChars cs).map TomlDatum.integer

/-! ### String round-trip lemmas -/

/-- Characters whose escaping (or verbatim copy) by `printTOMLstring` is
valid TOML and decodes back to the same character: printable ASCII other
than quote/backslash, the five named control escapes, quote, backslash. -/
def tomlSafeChar (c : Char) : Bool :=
  okTOMLchar c || c.toNat == 8 || c.toNat == 9 || c.toNat == 10 ||
    c.toNat == 12 || c.toNat == 13 || c == '"' || c == '\\'

theorem printTOMLstring_eq_slow (s : List Char) :
    printTOMLstring s = '"' :: (slowBody s ++ ['"']) := by
  unfold printTOMLstring
  split
  · next h => rw [slowBody_of_ok h]
  · rfl

theorem escSeq_unesc {c : Char} (hs : tomlSafeChar c = true)
    (hn : okTOMLchar c = false) :
    ∃ e, escSeq c = ['\\', e] ∧ bsUnesc e = some c := by
  simp only [tomlSafeChar, Bool.or_eq_true, beq_iff_eq] at hs
  rcases hs with ((((((hok | h8) | h9) | h10) | h12) | h13) | hq) | hb
  · rw [hok] at hn; cases hn
  · have : c = Char.ofNat 8 := by rw [← Char.ofNat_toNat c, h8]
    subst this; exact ⟨'b', by decide, by decide⟩
  · have : c = Char.ofNat 9 := by rw [← Char.ofNat_toNat c, h9]
    subst this; exact ⟨'t', by decide, by decide⟩
  · have : c = Char.ofNat 10 := by rw [← Char.ofNat_toNat c, h10]
    subst this; exact ⟨'n', by decide, by decide⟩
  · have : c = Char.ofNat 12 := by rw [← Char.ofNat_toNat c, h12]
    subst this; exact ⟨'f', by decide, by decide⟩
  · have : c = Char.ofNat 13 := by rw [← Char.ofNat_toNat c, h13]
    subst this; exact ⟨'r', by decide, by decide⟩
  · subst hq; exact ⟨'"', by decide, by decide⟩
  · subst hb; exact ⟨'\\', by decide, by decide⟩

theorem bsLiteralOK_of_ok {c : Char} (h : okTOMLchar c = true) :
    bsLiteralOK c = true := by
  simp only [okTOMLchar, Bool.and_eq_true, Bool.not_eq_true', beq_eq_false_iff_ne,
    ne_eq, isprintC, decide_eq_true_eq] at h
  simp only [bsLiteralOK, Bool.or_eq_true, Bool.and_eq_true, Bool.not_eq_true',
    beq_eq_false_iff_ne, ne_eq, decide_eq_true_eq]
  refine Or.inl ⟨⟨⟨h.1.1.1, h.1.2⟩, h.2⟩, ?_⟩
  have := h.1.1.2
  omega

theorem ok_ne_quote {c : Char} (h : okTOMLchar c = true) : (c == '"') = false := by
  simp only [okTOMLchar, Bool.and_eq_true] at h
  simpa using h.1.2

theorem ok_ne_backslash {c : Char} (h : okTOMLchar c = true) :
    (c == '\\') = false := by
  simp only [okTOMLchar, Bool.and_eq_true] at h
  simpa using h.2

/-- Scanning the escaped body plus the closing quote recovers the source
string exactly, for strings of TOML-safe characters. -/
theorem bsLoop_slowBody {s : List Char} (h : s.all tomlSafeChar = true) :
    bsLoop (slowBody s ++ ['"']) = some (s, []) := by
  induction s with
  | nil => decide
  | cons c rest ih =>
    simp only [List.all_cons, Bool.and_eq_true] at h
    have ihr := ih h.2
    by_cases hok : okTOMLchar c = true
    · have hlit := bsLiteralOK_of_ok hok
      have hq := ok_ne_quote hok
      have hb := ok_ne_backslash hok
      simp only [slowBody, hok, if_true, List.singleton_append, List.cons_append]
      rw [bsLoop.eq_def]
      simp only [hq, hb, Bool.false_eq_true, if_false, hlit, if_true,
        List.nil_append, ihr]
    · have hn : okTOMLchar c = false := by
        cases hcv : okTOMLchar c
        · rfl
        · exact absurd hcv hok
      obtain ⟨e, hesc, hune⟩ := escSeq_unesc h.1 hn
      simp only [slowBody, hn, Bool.false_eq_true, if_false, hesc, List.cons_append,
        List.nil_append]
      rw [bsLoop.eq_def]
      simp only [show (('\\' : Char) == '"') = false by decide,
        show (('\\' : Char) == '\\') = true by decide,
        Bool.false_eq_true, if_false, if_true, hune, ihr]

/-- A string written by `printTOMLstring` parses back to the identical
string, provided every character is TOML-safe. -/
theorem parseTomlValue_printTOMLstring {s : List Char}
    (h : s.all tomlSafeChar = true) :
    parseTomlValue (printTOMLstring s) = some (.string s) := by
  rw [printTOMLstring_eq_slow]
  unfold parseTomlValue
  rw [if_neg (by simp [List.cons_beq_cons]), if_neg (by simp [List.cons_beq_cons]),
      if_pos (by simp)]
  simp only [List.tail_cons, bsLoop_slowBody h]

/-- `fprintf` rendering of a signed integer (`%i` / `%li`). -/
def intChars (i : Int) : List Char :=
  if i < 0 then '-' :: decChars i.natAbs else decChars i.natAbs


theorem splitSign_cons_digit {c : Char} {cs : List Char} (h : isdigitC c = true) :
    splitSign (c :: cs) = (false, c :: cs) := by
  unfold splitSign
  split
  · next heq => injection heq with h1 _; rw [h1] at h; exact absurd h (by decide)
  · next heq => injection heq with h1 _; rw [h1] at h; exact absurd h (by decide)
  · rfl

theorem decChars_big_of_len {n : Nat} (h : 1 < (decChars n).length) : 10 ≤ n := by
  by_contra hn
  rw [decChars] at h
  rw [dif_pos (by omega)] at h
  simp at h

/-- Digit-string facts packaged for the integer parser: a `decChars`
rendering is a nonempty all-digit string without a forbidden leading zero. -/
theorem tomlIntChars_decChars_core (n : Nat) :
    ((decChars n : List Char) == []) = false ∧
    (!(decChars n).all isdigitC) = false ∧
    (decide (1 < (decChars n).length) && (decChars n).head? == some '0') = false := by
  refine ⟨by simpa using decChars_ne_nil n, by simp [decChars_all_digits n], ?_⟩
  by_cases hlen : 1 < (decChars n).length
  · have h10 := decChars_big_of_len hlen
    have hz := decChars_head_ne_zero (n := n) (by omega)
    rw [decide_eq_true hlen, Bool.true_and]
    simpa using hz
  · simp [hlen]

theorem tomlIntAux_dec_pos (n : Nat) (hhi : (n : Int) ≤ 2 ^ 63 - 1) :
    tomlIntAux false (decChars n) = some (n : Int) := by
  obtain ⟨hne, hdig, hlead⟩ := tomlIntChars_decChars_core n
  simp only [tomlIntAux, hne, hdig, hlead, Bool.false_eq_true, if_false]
  rw [decOfChars_decChars]
  rw [if_pos ⟨by omega, by omega⟩]

theorem tomlIntAux_dec_neg (n : Nat) (hhi : (n : Int) ≤ 2 ^ 63) :
    tomlIntAux true (decChars n) = some (-(n : Int)) := by
  obtain ⟨hne, hdig, hlead⟩ := tomlIntChars_decChars_core n
  simp only [tomlIntAux, hne, hdig, hlead, Bool.false_eq_true, if_false, if_true]
  rw [decOfChars_decChars]
  rw [if_pos ⟨by omega, by omega⟩]

/-- An `int64`-ranged integer printed with `%i`/`%li`/`%u`/`%lu` parses back
to the same value as a TOML integer. -/
theorem tomlIntChars_intChars {i : Int} (hlo : -(2 ^ 63) ≤ i)
    (hhi : i ≤ 2 ^ 63 - 1) : tomlIntChars (intChars i) = some i := by
  by_cases hneg : i < 0
  · have h1 : intChars i = '-' :: decChars i.natAbs := by rw [intChars, if_pos hneg]
    rw [h1]
    unfold tomlIntChars
    rw [show splitSign ('-' :: decChars i.natAbs) = (true, decChars i.natAbs) from rfl]
    show tomlIntAux true (decChars i.natAbs) = some i
    rw [tomlIntAux_dec_neg _ (by omega)]
    congr 1
    omega
  · obtain ⟨d, ds, hcons⟩ : ∃ d ds, decChars i.natAbs = d :: ds := by
      cases hd : decChars i.natAbs with
      | nil => exact absurd hd (decChars_ne_nil _)
      | cons a as => exact ⟨a, as, rfl⟩
    have hdigd : isdigitC d = true := by
      have hall := decChars_all_digits i.natAbs
      rw [hcons] at hall
      simp only [List.all_cons, Bool.and_eq_true] at hall
      exact hall.1
    have h1 : intChars i = d :: ds := by rw [intChars, if_neg hneg, hcons]
    rw [h1]
    unfold tomlIntChars
    rw [splitSign_cons_digit hdigd]
    show tomlIntAux false (d :: ds) = some i
    rw [← hcons, tomlIntAux_dec_pos _ (by omega)]
    congr 1
    omega

theorem isdigitC_ne {c x : Char} (h : isdigitC c = true) (hx : isdigitC x = false) :
    (c == x) = false := by
  simp only [beq_eq_false_iff_ne, ne_eq]
  intro hc; subst hc; rw [h] at hx; cases hx

/-- An `int64`-ranged integer printed by the writer parses back to the same
TOML integer datum. -/
theorem parseTomlValue_intChars {i : Int} (hlo : -(2 ^ 63) ≤ i)
    (hhi : i ≤ 2 ^ 63 - 1) :
    parseTomlValue (intChars i) = some (.integer i) := by
  have hint := tomlIntChars_intChars hlo hhi
  unfold parseTomlValue
  by_cases hneg : i < 0
  · have hch : intChars i = '-' :: decChars i.natAbs := by rw [intChars, if_pos hneg]
    rw [hch] at hint ⊢
    rw [if_neg (by simp [List.cons_beq_cons]), if_neg (by simp [List.cons_beq_cons]),
        if_neg (by simp), hint]
    rfl
  · obtain ⟨d, ds, hcons⟩ : ∃ d ds, decChars i.natAbs = d :: ds := by
      cases hd : decChars i.natAbs with
      | nil => exact absurd hd (decChars_ne_nil _)
      | cons a as => exact ⟨a, as, rfl⟩
    have hdigd : isdigitC d = true := by
      have hall := decChars_all_digits i.natAbs
      rw [hcons] at hall
      simp only [List.all_cons, Bool.and_eq_true] at hall
      exact hall.1
    have hch : intChars i = d :: ds := by rw [intChars, if_neg hneg, hcons]
    rw [hch] at hint ⊢
    rw [if_neg (by simp [List.cons_beq_cons, isdigitC_ne (x := 't') hdigd (by decide)]),
        if_neg (by simp [List.cons_beq_cons, isdigitC_ne (x := 'f') hdigd (by decide)]),
        if_neg (by simp [isdigitC_ne (x := '"') hdigd (by decide)]), hint]
    rfl

/-- C2: for every string of printable-ASCII characters containing no quote
and no backslash, the fast path of `printTOMLstring` (verbatim inside
quotes) is byte-identical to what the character-by-character slow path
would emit; and on the concrete input `a"b<newline>c` the routine emits
exactly `"a\"b\nc"`. -/
theorem C2_string_escaper {s : List Char} (h : s.all okTOMLchar = true) :
    (printTOMLstring s = '"' :: (s ++ ['"']) ∧
      '"' :: (s ++ ['"']) = '"' :: (slowBody s ++ ['"'])) ∧
    printTOMLstring ['a', '"', 'b', '\n', 'c'] =
      ['"', 'a', '\\', '"', 'b', '\\', 'n', 'c', '"'] := by
  refine ⟨⟨?_, ?_⟩, by decide⟩
  · rw [printTOMLstring, if_pos h]
  · rw [slowBody_of_ok h]

/-- Witness for `C2_string_escaper` at the concrete string `ab`. -/
theorem C2_string_escaper_witness :
    (printTOMLstring ['a', 'b'] = '"' :: (['a', 'b'] ++ ['"']) ∧
      '"' :: (['a', 'b'] ++ ['"']) = '"' :: (slowBody ['a', 'b'] ++ ['"'])) ∧
    printTOMLstring ['a', '"', 'b', '\n', 'c'] =
      ['"', 'a', '\\', '"', 'b', '\\', 'n', 'c', '"'] :=
  C2_string_escaper (by decide)

/-! ## Enumeration kinds and their name tables

Modelled from the spec: the `get_*_str` / `get_*_val` conversion functions
live in `datastructure.c`, which is not under `src/`.  Spec 4.2: "Each enum
kind exposes `nameToValue(text) -> value | not-found`, `valueToName(value)
-> text`, done case-insensitively for all string-typed enum lookups."  The
constructor sets and canonical names are those the legacy parser in the
source accepts (`NXDOMAIN`/`NULL`/`IP-NODATA-AAAA`/`IP`/`NODATA`,
`DROP`/`REFUSE`/`BLOCK`, `none`/`hostname`/`hostnamefqdn`,
`ALL`/`NONE`/`UNKNOWN`/`IPV4`). -/

inductive PtrType
  | PTR_NONE
  | PTR_HOSTNAME
  | PTR_HOSTNAMEFQDN
deriving DecidableEq

inductive BusyReply
  | BUSY_DROP
  | BUSY_REFUSE
  | BUSY_BLOCK
deriving DecidableEq

inductive BlockingMode
  | MODE_IP
  | MODE_NX
  | MODE_NULL
  | MODE_IP_NODATA_AAAA
  | MODE_NODATA
deriving DecidableEq

inductive RefreshHostnames
  | REFRESH_IPV4_ONLY
  | REFRESH_ALL
  | REFRESH_NONE
  | REFRESH_UNKNOWN
deriving DecidableEq

def get_ptr_type_str : PtrType → List Char
  | .PTR_NONE => "NONE".toList
  | .PTR_HOSTNAME => "HOSTNAME".toList
  | .PTR_HOSTNAMEFQDN => "HOSTNAMEFQDN".toList

def get_ptr_type_val (s : List Char) : Option PtrType :=
  if strcaseeq s ("NONE".toList) then some .PTR_NONE
  else if strcaseeq s ("HOSTNAME".toList) then some .PTR_HOSTNAME
  else if strcaseeq s ("HOSTNAMEFQDN".toList) then some .PTR_HOSTNAMEFQDN
  else none

def get_busy_reply_str : BusyReply → List Char
  | .BUSY_DROP => "DROP".toList
  | .BUSY_REFUSE => "REFUSE".toList
  | .BUSY_BLOCK => "BLOCK".toList

def get_busy_reply_val (s : List Char) : Option BusyReply :=
  if strcaseeq s ("DROP".toList) then some .BUSY_DROP
  else if strcaseeq s ("REFUSE".toList) then some .BUSY_REFUSE
  else if strcaseeq s ("BLOCK".toList) then some .BUSY_BLOCK
  else none

def get_blocking_mode_str : BlockingMode → List Char
  | .MODE_IP => "IP".toList
  | .MODE_NX => "NXDOMAIN".toList
  | .MODE_NULL => "NULL".toList
  | .MODE_IP_NODATA_AAAA => "IP-NODATA-AAAA".toList
  | .MODE_NODATA => "NODATA".toList

def get_blocking_mode_val (s : List Char) : Option BlockingMode :=
  if strcaseeq s ("NXDOMAIN".toList) then some .MODE_NX
  else if strcaseeq s ("NULL".toList) then some .MODE_NULL
  else if strcaseeq s ("IP-NODATA-AAAA".toList) then some .MODE_IP_NODATA_AAAA
  else if strcaseeq s ("IP".toList) then some .MODE_IP
  else if strcaseeq s ("NODATA".toList) then some .MODE_NODATA
  else none

def get_refresh_hostnames_str : RefreshHostnames → List Char
  | .REFRESH_IPV4_ONLY => "IPV4".toList
  | .REFRESH_ALL => "ALL".toList
  | .REFRESH_NONE => "NONE".toList
  | .REFRESH_UNKNOWN => "UNKNOWN".toList

def get_refresh_hostnames_val (s : List Char) : Option RefreshHostnames :=
  if strcaseeq s ("IPV4".toList) then some .REFRESH_IPV4_ONLY
  else if strcaseeq s ("ALL".toList) then some .REFRESH_ALL
  else if strcaseeq s ("NONE".toList) then some .REFRESH_NONE
  else if strcaseeq s ("UNKNOWN".toList) then some .REFRESH_UNKNOWN
  else none

/-- Name/value round trip for every enum kind (case-insensitive lookup of
the canonical name finds the original value). -/
theorem enum_name_value_roundtrip :
    (∀ x : PtrType, get_ptr_type_val (get_ptr_type_str x) = some x) ∧
    (∀ x : BusyReply, get_busy_reply_val (get_busy_reply_str x) = some x) ∧
    (∀ x : BlockingMode, get_blocking_mode_val (get_blocking_mode_str x) = some x) ∧
    (∀ x : RefreshHostnames,
      get_refresh_hostnames_val (get_refresh_hostnames_str x) = some x) := by
  refine ⟨?_, ?_, ?_, ?_⟩ <;> intro x <;> cases x <;> decide

/-! ## Textual IP addresses

Modelled from the spec: `inet_ntop`/`inet_pton` are libc collaborators
(spec 4.2: "Address validators accept only syntactically valid dotted-quad
/ colon-hex textual forms and reject everything else (no partial parse)";
4.4: "addresses formatted via standard textual address notation").  An
IPv4 address is its four bytes, rendered/parsed as a dotted quad; an IPv6
address is its eight 16-bit groups, rendered in the standard uncompressed
colon-hex form `x:x:x:x:x:x:x:x` (a syntactically valid form of every
address) and parsed in the same full form. -/

theorem takeWhile_all_eq {p : Char → Bool} {xs : List Char}
    (h : xs.all p = true) : xs.takeWhile p = xs ∧ xs.dropWhile p = [] := by
  induction xs with
  | nil => exact ⟨rfl, rfl⟩
  | cons x xt ih =>
    simp only [List.all_cons, Bool.and_eq_true] at h
    have := ih h.2
    simp [List.takeWhile_cons, List.dropWhile_cons, h.1, this.1, this.2]

theorem takeWhile_append_stop {p : Char → Bool} {xs ys : List Char} {y : Char}
    (h : xs.all p = true) (hy : p y = false) :
    (xs ++ y :: ys).takeWhile p = xs ∧ (xs ++ y :: ys).dropWhile p = y :: ys := by
  induction xs with
  | nil => simp [List.takeWhile_cons, List.dropWhile_cons, hy]
  | cons x xt ih =>
    simp only [List.all_cons, Bool.and_eq_true] at h
    have := ih h.2
    simp [List.takeWhile_cons, List.dropWhile_cons, h.1, this.1, this.2]

/-- Render a group list with a separator (shared shape of the dotted quad
and the colon-hex form). -/
def ntopGroups (render : Nat → List Char) (sep : Char) : List Nat → List Char
  | [] => []
  | [g] => render g
  | g :: gs => render g ++ sep :: ntopGroups render sep gs

/-- Parse exactly `count` separator-delimited digit groups, each nonempty,
at most `maxLen` digits, value at most `maxVal`, consuming all input. -/
def ptonGroups (digp : Char → Bool) (value : List Char → Nat) (sep : Char)
    (maxLen maxVal : Nat) : Nat → List Char → Option (List Nat)
  | 0, _ => none
  | 1, cs =>
    let ds := cs.takeWhile digp
    if ds == [] then none
    else if maxLen < ds.length then none
    else if maxVal < value ds then none
    else if cs.dropWhile digp == [] then some [value ds] else none
  | n + 2, cs =>
    let ds := cs.takeWhile digp
    if ds == [] then none
    else if maxLen < ds.length then none
    else if maxVal < value ds then none
    else
      match cs.dropWhile digp with
      | r :: rest2 =>
        if r == sep then
          (ptonGroups digp value sep maxLen maxVal (n + 1) rest2).map
            (fun t => value ds :: t)
        else none
      | [] => none

/-- Generic group-list round trip: parsing the rendering of a nonempty,
in-range group list recovers it exactly. -/
theorem ptonGroups_ntopGroups {digp : Char → Bool} {value : List Char → Nat}
    {sep : Char} {maxLen maxVal : Nat} {render : Nat → List Char}
    (hval : ∀ n, value (render n) = n)
    (hdig : ∀ n, (render n).all digp = true)
    (hne : ∀ n, render n ≠ [])
    (hlen : ∀ n, n ≤ maxVal → (render n).length ≤ maxLen)
    (hsep : digp sep = false) :
    ∀ gs : List Nat, gs ≠ [] → (∀ g ∈ gs, g ≤ maxVal) →
      ptonGroups digp value sep maxLen maxVal gs.length
        (ntopGroups render sep gs) = some gs := by
  intro gs
  induction gs with
  | nil => intro h; exact absurd rfl h
  | cons g rest ih =>
    intro _ hin
    have hg : g ≤ maxVal := hin g (List.mem_cons_self g rest)
    have hnebeq : ((render g : List Char) == []) = false := by
      simpa using hne g
    have hlenif : (maxLen < (render g).length) = False := by
      simp only [eq_iff_iff, iff_false, not_lt]
      exact hlen g hg
    have hvalif : (maxVal < value (render g)) = False := by
      simp only [eq_iff_iff, iff_false, not_lt, hval g]
      exact hg
    cases rest with
    | nil =>
      have htk := takeWhile_all_eq (p := digp) (hdig g)
      simp only [ntopGroups, List.length_cons, List.length_nil]
      simp only [ptonGroups, htk.1, htk.2, hnebeq, Bool.false_eq_true, if_false,
        hlenif, hvalif, List.nil_beq_iff, if_true, hval g]
      simp [Nat.not_lt.mpr hg]
    | cons g2 rest2 =>
      have hnt : ntopGroups render sep (g :: g2 :: rest2) =
          render g ++ sep :: ntopGroups render sep (g2 :: rest2) := rfl
      have htk : (render g ++ sep :: ntopGroups render sep (g2 :: rest2)).takeWhile
            digp = render g ∧
          (render g ++ sep :: ntopGroups render sep (g2 :: rest2)).dropWhile digp
            = sep :: ntopGroups render sep (g2 :: rest2) :=
        takeWhile_append_stop (hdig g) hsep
      have hih := ih (by simp) (fun x hx => hin x (List.mem_cons_of_mem g hx))
      simp only [List.length_cons] at hih ⊢
      rw [hnt]
      simp only [ptonGroups, htk.1, htk.2, hnebeq, Bool.false_eq_true, if_false,
        hlenif, hvalif, beq_self_eq_true, if_true, hih, Option.map_some, hval g]
      simp [Nat.not_lt.mpr hg, hih]

/-- `inet_ntop(AF_INET)`: dotted-quad rendering of the four address bytes. -/
def inet_ntop4 (bs : List Nat) : List Char := ntopGroups decChars '.' bs

/-- `inet_pton(AF_INET)`: parse a dotted quad (four decimal groups of at
most three digits each, each at most 255, nothing else accepted). -/
def inet_pton4 (cs : List Char) : Option (List Nat) :=
  ptonGroups isdigitC decOfChars '.' 3 255 4 cs

/-- `inet_ntop(AF_INET6)`: full (uncompressed) colon-hex rendering of the
eight 16-bit groups. -/
def inet_ntop6 (gs : List Nat) : List Char := ntopGroups hexChars ':' gs

/-- `inet_pton(AF_INET6)`: parse the full colon-hex form (eight hex groups
of at most four digits each). -/
def inet_pton6 (cs : List Char) : Option (List Nat) :=
  ptonGroups isxdigitC hexOfChars ':' 4 65535 8 cs

theorem decChars_len3 {n : Nat} (h : n ≤ 255) : (decChars n).length ≤ 3 :=
  decChars_length_le (by norm_num)
    (Nat.lt_of_le_of_lt h (by norm_num : (255 : Nat) < 10 ^ 3))

theorem hexChars_len4 {n : Nat} (h : n ≤ 65535) : (hexChars n).length ≤ 4 :=
  hexChars_length_le (by norm_num)
    (Nat.lt_of_le_of_lt h (by norm_num : (65535 : Nat) < 16 ^ 4))

/-- Parsing the rendered dotted quad recovers the four bytes. -/
theorem inet_pton4_ntop4 {bs : List Nat} (h4 : bs.length = 4)
    (hb : ∀ b ∈ bs, b ≤ 255) : inet_pton4 (inet_ntop4 bs) = some bs := by
  have hnn : bs ≠ [] := by intro hnil; rw [hnil] at h4; simp at h4
  rw [inet_pton4, inet_ntop4, show (4 : Nat) = bs.length from h4.symm]
  exact ptonGroups_ntopGroups decOfChars_decChars decChars_all_digits
    decChars_ne_nil (fun n hn => decChars_len3 hn) (by decide) bs hnn hb

/-- Parsing the rendered full colon-hex form recovers the eight groups. -/
theorem inet_pton6_ntop6 {gs : List Nat} (h8 : gs.length = 8)
    (hg : ∀ g ∈ gs, g ≤ 65535) : inet_pton6 (inet_ntop6 gs) = some gs := by
  have hnn : gs ≠ [] := by intro hnil; rw [hnil] at h8; simp at h8
  rw [inet_pton6, inet_ntop6, show (8 : Nat) = gs.length from h8.symm]
  exact ptonGroups_ntopGroups hexOfChars_hexChars hexChars_all_digits
    hexChars_ne_nil (fun n hn => hexChars_len4 hn) (by decide) gs hnn hg

/-! ### Address texts are plain printable strings -/

theorem all_imp {p q : Char → Bool} (h : ∀ c, p c = true → q c = true)
    {l : List Char} (hl : l.all p = true) : l.all q = true := by
  rw [List.all_eq_true] at hl ⊢
  exact fun c hc => h c (hl c hc)

theorem ok_of_digit (c : Char) (h : isdigitC c = true) : okTOMLchar c = true := by
  have hq : (c == '"') = false := isdigitC_ne (x := '"') h (by decide)
  have hb : (c == '\\') = false := isdigitC_ne (x := '\\') h (by decide)
  have hp : isprintC c = true := by
    simp only [isdigitC, Bool.and_eq_true, decide_eq_true_eq] at h
    simp only [isprintC, Bool.and_eq_true, decide_eq_true_eq]
    omega
  simp [okTOMLchar, hq, hb, hp]

theorem ok_of_xdigit (c : Char) (h : isxdigitC c = true) : okTOMLchar c = true := by
  have hq : (c == '"') = false := by
    rw [beq_eq_false_iff_ne]
    intro he; subst he; exact absurd h (by decide)
  have hb : (c == '\\') = false := by
    rw [beq_eq_false_iff_ne]
    intro he; subst he; exact absurd h (by decide)
  have hp : isprintC c = true := by
    simp only [isxdigitC, isdigitC, Bool.or_eq_true, Bool.and_eq_true,
      decide_eq_true_eq] at h
    simp only [isprintC, Bool.and_eq_true, decide_eq_true_eq]
    omega
  simp [okTOMLchar, hq, hb, hp]

theorem ntopGroups_all_ok {render : Nat → List Char} {sep : Char}
    (hr : ∀ n, (render n).all okTOMLchar = true) (hs : okTOMLchar sep = true) :
    ∀ gs, (ntopGroups render sep gs).all okTOMLchar = true := by
  intro gs
  induction gs with
  | nil => rfl
  | cons g rest ih =>
    cases rest with
    | nil => exact hr g
    | cons g2 rest2 =>
      have : ntopGroups render sep (g :: g2 :: rest2) =
          render g ++ sep :: ntopGroups render sep (g2 :: rest2) := rfl
      rw [this]
      simp [List.all_append, List.all_cons, hr g, hs, ih]

theorem inet_ntop4_all_ok (bs : List Nat) :
    (inet_ntop4 bs).all okTOMLchar = true :=
  ntopGroups_all_ok (fun n => all_imp ok_of_digit (decChars_all_digits n))
    (by decide) bs

theorem inet_ntop6_all_ok (gs : List Nat) :
    (inet_ntop6 gs).all okTOMLchar = true :=
  ntopGroups_all_ok (fun n => all_imp ok_of_xdigit (hexChars_all_digits n))
    (by decide) gs

theorem safe_of_ok (c : Char) (h : okTOMLchar c = true) : tomlSafeChar c = true := by
  simp [tomlSafeChar, h]

/-! ## The tagged configuration value and the TOML writer/reader
(src/src/config/toml_helper.c, lines 92-142 and 145-289)

The C code stores an untagged `union conf_value` next to an external
`enum conf_type`; the embedding fuses the two into one closed sum, one
constructor per `CONF_*` tag, carrying exactly the union member that tag
uses.  `PRIVACY_SHOW_ALL`/`PRIVACY_MAXIMUM` are `0` and `3` (FTL.h, quoted
in the source's PRIVACYLEVEL comment block: levels 0-3 plus the retired
`PRIVACY_NOSTATS (4)`). -/

def PRIVACY_SHOW_ALL : Int := 0

def PRIVACY_MAXIMUM : Int := 3

inductive ConfValue
  | b (x : Bool)                          -- CONF_BOOL
  | i (x : Int)                           -- CONF_INT (int)
  | ui (x : Nat)                          -- CONF_UINT (unsigned int)
  | l (x : Int)                           -- CONF_LONG (long int)
  | ul (x : Nat)                          -- CONF_ULONG (unsigned long)
  | s (x : List Char)                     -- CONF_STRING
  | ptr_type (x : PtrType)                -- CONF_ENUM_PTR_TYPE
  | busy_reply (x : BusyReply)            -- CONF_ENUM_BUSY_TYPE
  | blocking_mode (x : BlockingMode)      -- CONF_ENUM_BLOCKING_MODE
  | refresh_hostnames (x : RefreshHostnames) -- CONF_ENUM_REFRESH_HOSTNAMES
  | privacy_level (x : Nat)               -- CONF_ENUM_PRIVACY_LEVEL (in v.ui/v.i)
  | in_addr (x : List Nat)                -- CONF_STRUCT_IN_ADDR (4 bytes)
  | in6_addr (x : List Nat)               -- CONF_STRUCT_IN6_ADDR (8 hex groups)
deriving DecidableEq

/-- `writeTOMLvalue`: the bytes emitted for one value (the switch over
`conf_type`): booleans bare, integers decimal (`%i`/`%u`/`%li`/`%lu`),
strings via `printTOMLstring`, enums resolved to their canonical name and
quoted, addresses through `inet_ntop` and quoted. -/
def writeTOMLvalue : ConfValue → List Char
  | .b x => if x then ['t', 'r', 'u', 'e'] else ['f', 'a', 'l', 's', 'e']
  | .i x => intChars x
  | .ui x => decChars x
  | .l x => intChars x
  | .ul x => decChars x
  | .s x => printTOMLstring x
  | .ptr_type x => printTOMLstring (get_ptr_type_str x)
  | .busy_reply x => printTOMLstring (get_busy_reply_str x)
  | .blocking_mode x => printTOMLstring (get_blocking_mode_str x)
  | .refresh_hostnames x => printTOMLstring (get_refresh_hostnames_str x)
  | .privacy_level x => decChars x
  | .in_addr x => printTOMLstring (inet_ntop4 x)
  | .in6_addr x => printTOMLstring (inet_ntop6 x)

/-- One parsed TOML table: keys mapped to decoded leaf values. -/
abbrev TomlTable := List (List Char × TomlDatum)

/-- Key lookup in a table. -/
def toml_in (t : TomlTable) (k : List Char) : Option TomlDatum :=
  (List.find? (fun e => e.1 == k) t).map (fun e => e.2)

/-- `toml_bool_in`: `ok` exactly when the key holds a boolean. -/
def toml_bool_in (t : TomlTable) (k : List Char) : Option Bool :=
  match toml_in t k with
  | some (.boolean x) => some x
  | _ => none

/-- `toml_int_in`: `ok` exactly when the key holds an integer. -/
def toml_int_in (t : TomlTable) (k : List Char) : Option Int :=
  match toml_in t k with
  | some (.integer x) => some x
  | _ => none

/-- `toml_string_in`: `ok` exactly when the key holds a string. -/
def toml_string_in (t : TomlTable) (k : List Char) : Option (List Char) :=
  match toml_in t k with
  | some (.string x) => some x
  | _ => none

/-- `int64_t` narrowed to `int` (two's-complement wrap, as gcc does for the
implicit conversion in `conf_item->v.i = val.u.i`). -/
def toInt32 (x : Int) : Int := (x + 2 ^ 31) % 2 ^ 32 - 2 ^ 31

/-- `readTOMLvalue`: the switch over the item's `conf_type`.  The item's
current value (`prior`) fixes the tag (the tag is part of the static
schema); every failing extraction leaves `prior` in place, matching the
C code's "log and keep" branches.  Unsigned kinds reject negatives; the
privacy level must lie in `PRIVACY_SHOW_ALL ..= PRIVACY_MAXIMUM`; enum
strings resolve through `get_*_val` (`-1`, here `none`, keeps the prior
value); addresses must satisfy `inet_pton`. -/
def readTOMLvalue (prior : ConfValue) (k : List Char) (t : TomlTable) : ConfValue :=
  match prior with
  | .b _ =>
    match toml_bool_in t k with
    | some x => .b x
    | none => prior
  | .i _ =>
    match toml_int_in t k with
    | some x => .i (toInt32 x)
    | none => prior
  | .ui _ =>
    match toml_int_in t k with
    | some x => if 0 ≤ x then .ui (x.toNat % 2 ^ 32) else prior
    | none => prior
  | .l _ =>
    match toml_int_in t k with
    | some x => .l x
    | none => prior
  | .ul _ =>
    match toml_int_in t k with
    | some x => if 0 ≤ x then .ul (x.toNat % 2 ^ 64) else prior
    | none => prior
  | .s _ =>
    match toml_string_in t k with
    | some x => .s x
    | none => prior
  | .ptr_type _ =>
    match toml_string_in t k with
    | some x =>
      match get_ptr_type_val x with
      | some v => .ptr_type v
      | none => prior
    | none => prior
  | .busy_reply _ =>
    match toml_string_in t k with
    | some x =>
      match get_busy_reply_val x with
      | some v => .busy_reply v
      | none => prior
    | none => prior
  | .blocking_mode _ =>
    match toml_string_in t k with
    | some x =>
      match get_blocking_mode_val x with
      | some v => .blocking_mode v
      | none => prior
    | none => prior
  | .refresh_hostnames _ =>
    match toml_string_in t k with
    | some x =>
      match get_refresh_hostnames_val x with
      | some v => .refresh_hostnames v
      | none => prior
    | none => prior
  | .privacy_level _ =>
    match toml_int_in t k with
    | some x =>
      if PRIVACY_SHOW_ALL ≤ x ∧ x ≤ PRIVACY_MAXIMUM then .privacy_level x.toNat
      else prior
    | none => prior
  | .in_addr _ =>
    match toml_string_in t k with
    | some x =>
      match inet_pton4 x with
      | some a => .in_addr a
      | none => prior
    | none => prior
  | .in6_addr _ =>
    match toml_string_in t k with
    | some x =>
      match inet_pton6 x with
      | some a => .in6_addr a
      | none => prior
    | none => prior

/-- The table a full save-then-load presents for one item: the written
value text under the item's leaf key.  If the text does not parse as a
TOML value, `toml_parse_file` fails and the whole structured load is
abandoned with every item left at its current value; for the single item
concerned the net effect is the same as its key being absent, which is how
the failure case is modelled here. -/
def tomlLeafTable (k : List Char) (text : List Char) : TomlTable :=
  match parseTomlValue text with
  | some d => [(k, d)]
  | none => []

/-- One write-then-read step for a single item: serialize the current
value `v`, parse the emitted document fragment, and run `readTOMLvalue`
on an item whose stored value is `prior`. -/
def writeReadItem (v prior : ConfValue) (k : List Char) : ConfValue :=
  readTOMLvalue prior k (tomlLeafTable k (writeTOMLvalue v))

/-! ### Per-tag write-then-read round trips -/

theorem toml_in_self (k : List Char) (d : TomlDatum) :
    toml_in [(k, d)] k = some d := by
  simp [toml_in, List.find?]

theorem parseTomlValue_decChars (n : Nat) (hhi : (n : Int) ≤ 2 ^ 63 - 1) :
    parseTomlValue (decChars n) = some (.integer (n : Int)) := by
  have h := parseTomlValue_intChars (i := (n : Int)) (by omega) hhi
  rw [intChars, if_neg (by omega)] at h
  simpa using h

theorem rt_b (x d : Bool) (k : List Char) :
    writeReadItem (.b x) (.b d) k = .b x := by
  cases x
  · have hp : parseTomlValue ['f', 'a', 'l', 's', 'e'] = some (.boolean false) := by
      decide
    simp [writeReadItem, writeTOMLvalue, tomlLeafTable, hp, readTOMLvalue,
      toml_bool_in, toml_in_self]
  · have hp : parseTomlValue ['t', 'r', 'u', 'e'] = some (.boolean true) := by
      decide
    simp [writeReadItem, writeTOMLvalue, tomlLeafTable, hp, readTOMLvalue,
      toml_bool_in, toml_in_self]

theorem rt_i {x : Int} (hlo : -(2 ^ 31) ≤ x) (hhi : x ≤ 2 ^ 31 - 1)
    (d : Int) (k : List Char) : writeReadItem (.i x) (.i d) k = .i x := by
  have hp := parseTomlValue_intChars (i := x) (by omega) (by omega)
  have ht : toInt32 x = x := by unfold toInt32; omega
  simp [writeReadItem, writeTOMLvalue, tomlLeafTable, hp, readTOMLvalue,
    toml_int_in, toml_in_self, ht]

theorem rt_ui {x : Nat} (hx : x < 2 ^ 32) (d : Nat) (k : List Char) :
    writeReadItem (.ui x) (.ui d) k = .ui x := by
  have hp := parseTomlValue_decChars x (by omega)
  have hm : (x : Int).toNat % 2 ^ 32 = x := by omega
  simp [writeReadItem, writeTOMLvalue, tomlLeafTable, hp, readTOMLvalue,
    toml_int_in, toml_in_self, hm, Int.natCast_nonneg]
  omega

theorem rt_l {x : Int} (hlo : -(2 ^ 63) ≤ x) (hhi : x ≤ 2 ^ 63 - 1)
    (d : Int) (k : List Char) : writeReadItem (.l x) (.l d) k = .l x := by
  have hp := parseTomlValue_intChars (i := x) hlo hhi
  simp [writeReadItem, writeTOMLvalue, tomlLeafTable, hp, readTOMLvalue,
    toml_int_in, toml_in_self]

theorem rt_ul {x : Nat} (hx : x ≤ 2 ^ 63 - 1) (d : Nat) (k : List Char) :
    writeReadItem (.ul x) (.ul d) k = .ul x := by
  have hp := parseTomlValue_decChars x (by omega)
  have hm : (x : Int).toNat % 2 ^ 64 = x := by omega
  simp [writeReadItem, writeTOMLvalue, tomlLeafTable, hp, readTOMLvalue,
    toml_int_in, toml_in_self, hm, Int.natCast_nonneg]
  omega

theorem rt_s {x : List Char} (hx : x.all tomlSafeChar = true)
    (d : List Char) (k : List Char) : writeReadItem (.s x) (.s d) k = .s x := by
  have hp := parseTomlValue_printTOMLstring hx
  simp [writeReadItem, writeTOMLvalue, tomlLeafTable, hp, readTOMLvalue,
    toml_string_in, toml_in_self]

theorem rt_ptr (x d : PtrType) (k : List Char) :
    writeReadItem (.ptr_type x) (.ptr_type d) k = .ptr_type x := by
  have hp := parseTomlValue_printTOMLstring
    (s := get_ptr_type_str x) (by cases x <;> decide)
  have hval : get_ptr_type_val (get_ptr_type_str x) = some x := by
    cases x <;> decide
  simp [writeReadItem, writeTOMLvalue, tomlLeafTable, hp, readTOMLvalue,
    toml_string_in, toml_in_self, hval]

theorem rt_busy (x d : BusyReply) (k : List Char) :
    writeReadItem (.busy_reply x) (.busy_reply d) k = .busy_reply x := by
  have hp := parseTomlValue_printTOMLstring
    (s := get_busy_reply_str x) (by cases x <;> decide)
  have hval : get_busy_reply_val (get_busy_reply_str x) = some x := by
    cases x <;> decide
  simp [writeReadItem, writeTOMLvalue, tomlLeafTable, hp, readTOMLvalue,
    toml_string_in, toml_in_self, hval]

theorem rt_blocking (x d : BlockingMode) (k : List Char) :
    writeReadItem (.blocking_mode x) (.blocking_mode d) k = .blocking_mode x := by
  have hp := parseTomlValue_printTOMLstring
    (s := get_blocking_mode_str x) (by cases x <;> decide)
  have hval : get_blocking_mode_val (get_blocking_mode_str x) = some x := by
    cases x <;> decide
  simp [writeReadItem, writeTOMLvalue, tomlLeafTable, hp, readTOMLvalue,
    toml_string_in, toml_in_self, hval]

theorem rt_refresh (x d : RefreshHostnames) (k : List Char) :
    writeReadItem (.refresh_hostnames x) (.refresh_hostnames d) k =
      .refresh_hostnames x := by
  have hp := parseTomlValue_printTOMLstring
    (s := get_refresh_hostnames_str x) (by cases x <;> decide)
  have hval : get_refresh_hostnames_val (get_refresh_hostnames_str x) = some x := by
    cases x <;> decide
  simp [writeReadItem, writeTOMLvalue, tomlLeafTable, hp, readTOMLvalue,
    toml_string_in, toml_in_self, hval]

theorem rt_privacy {x : Nat} (hx : x ≤ 3) (d : Nat) (k : List Char) :
    writeReadItem (.privacy_level x) (.privacy_level d) k = .privacy_level x := by
  have hp := parseTomlValue_decChars x (by omega)
  have hrange : PRIVACY_SHOW_ALL ≤ (x : Int) ∧ (x : Int) ≤ PRIVACY_MAXIMUM := by
    unfold PRIVACY_SHOW_ALL PRIVACY_MAXIMUM
    omega
  have htn : (x : Int).toNat = x := by omega
  simp [writeReadItem, writeTOMLvalue, tomlLeafTable, hp, readTOMLvalue,
    toml_int_in, toml_in_self, hrange, htn]

theorem rt_addr4 {x : List Nat} (h4 : x.length = 4) (hb : ∀ b ∈ x, b ≤ 255)
    (d : List Nat) (k : List Char) :
    writeReadItem (.in_addr x) (.in_addr d) k = .in_addr x := by
  have hp := parseTomlValue_printTOMLstring
    (s := inet_ntop4 x) (all_imp safe_of_ok (inet_ntop4_all_ok x))
  have hparse := inet_pton4_ntop4 h4 hb
  simp [writeReadItem, writeTOMLvalue, tomlLeafTable, hp, readTOMLvalue,
    toml_string_in, toml_in_self, hparse]

theorem rt_addr6 {x : List Nat} (h8 : x.length = 8) (hg : ∀ g ∈ x, g ≤ 65535)
    (d : List Nat) (k : List Char) :
    writeReadItem (.in6_addr x) (.in6_addr d) k = .in6_addr x := by
  have hp := parseTomlValue_printTOMLstring
    (s := inet_ntop6 x) (all_imp safe_of_ok (inet_ntop6_all_ok x))
  have hparse := inet_pton6_ntop6 h8 hg
  simp [writeReadItem, writeTOMLvalue, tomlLeafTable, hp, readTOMLvalue,
    toml_string_in, toml_in_self, hparse]

/-- Two values carry the same `conf_type` tag (the schema fixes an item's
tag; `readTOMLvalue` always receives a table cell of the item's own tag). -/
def ConfValue.sameTag : ConfValue → ConfValue → Prop
  | .b _, .b _ => True
  | .i _, .i _ => True
  | .ui _, .ui _ => True
  | .l _, .l _ => True
  | .ul _, .ul _ => True
  | .s _, .s _ => True
  | .ptr_type _, .ptr_type _ => True
  | .busy_reply _, .busy_reply _ => True
  | .blocking_mode _, .blocking_mode _ => True
  | .refresh_hostnames _, .refresh_hostnames _ => True
  | .privacy_level _, .privacy_level _ => True
  | .in_addr _, .in_addr _ => True
  | .in6_addr _, .in6_addr _ => True
  | _, _ => False

/-- Well-formedness of a stored value, as the machine types and the
reader's own validity checks bound it: `int`/`long` in their two's
complement ranges, `unsigned int` below `2^32`, `unsigned long` within the
TOML integer type (`int64_t`, the wire type of every structured-format
integer), strings containing only printable ASCII and the escapable
control characters `\b \t \n \f \r`, privacy level within
`PRIVACY_SHOW_ALL ..= PRIVACY_MAXIMUM`, addresses of the right width. -/
def ConfValue.valid : ConfValue → Prop
  | .b _ => True
  | .i x => -(2 ^ 31) ≤ x ∧ x ≤ 2 ^ 31 - 1
  | .ui x => x < 2 ^ 32
  | .l x => -(2 ^ 63) ≤ x ∧ x ≤ 2 ^ 63 - 1
  | .ul x => x ≤ 2 ^ 63 - 1
  | .s x => x.all tomlSafeChar = true
  | .ptr_type _ => True
  | .busy_reply _ => True
  | .blocking_mode _ => True
  | .refresh_hostnames _ => True
  | .privacy_level x => x ≤ 3
  | .in_addr x => x.length = 4 ∧ ∀ b ∈ x, b ≤ 255
  | .in6_addr x => x.length = 8 ∧ ∀ g ∈ x, g ≤ 65535

/-- C1 (amended): write-then-read round trip for every supported tag.  For
every item value `v` and same-tagged stored value `d`, serializing `v`
with `writeTOMLvalue` and reading the emitted document back with
`readTOMLvalue` yields `v` again, provided `v` is well-formed: string
values must consist of printable ASCII and the five named control escapes
(the writer's `\0xHH` fallback for other bytes is not valid TOML),
`unsigned long` values must fit the signed 64-bit TOML integer type, and a
privacy level must lie in the reader's accepted range `0 ..= 3`.  Applied
itemwise, a full save followed by a full load reproduces the registry. -/
theorem C1_write_read_roundtrip (v d : ConfValue) (k : List Char)
    (hv : v.valid) (ht : v.sameTag d) :
    writeReadItem v d k = v := by
  cases v <;> cases d <;> try exact ht.elim
  case b.b x y => exact rt_b x y k
  case i.i x y => exact rt_i hv.1 hv.2 y k
  case ui.ui x y => exact rt_ui hv y k
  case l.l x y => exact rt_l hv.1 hv.2 y k
  case ul.ul x y => exact rt_ul hv y k
  case s.s x y => exact rt_s hv y k
  case ptr_type.ptr_type x y => exact rt_ptr x y k
  case busy_reply.busy_reply x y => exact rt_busy x y k
  case blocking_mode.blocking_mode x y => exact rt_blocking x y k
  case refresh_hostnames.refresh_hostnames x y => exact rt_refresh x y k
  case privacy_level.privacy_level x y => exact rt_privacy hv y k
  case in_addr.in_addr x y => exact rt_addr4 hv.1 hv.2 y k
  case in6_addr.in6_addr x y => exact rt_addr6 hv.1 hv.2 y k

/-- Witness for `C1_write_read_roundtrip`: the IPv6 address `2001:db8::1`
(groups `[8193, 3512, 0, 0, 0, 0, 0, 1]`) written and read back. -/
theorem C1_write_read_roundtrip_witness :
    writeReadItem (.in6_addr [8193, 3512, 0, 0, 0, 0, 0, 1])
      (.in6_addr [0, 0, 0, 0, 0, 0, 0, 0]) ['k'] =
    .in6_addr [8193, 3512, 0, 0, 0, 0, 0, 1] :=
  C1_write_read_roundtrip _ _ _ (by constructor <;> decide) trivial

/-- C1 counterexample: the claim fails as stated.  A string item holding
the single byte `0x01` is written as `"\0x01"`; `\0` is not a TOML escape,
so the document does not parse back, the read leaves the item at its prior
value, and the round trip loses the stored value. -/
theorem C1_counterexample :
    writeTOMLvalue (.s [Char.ofNat 1]) =
      ['"', '\\', '0', 'x', '0', '1', '"'] ∧
    parseTomlValue (writeTOMLvalue (.s [Char.ofNat 1])) = none ∧
    writeReadItem (.s [Char.ofNat 1]) (.s []) ['k'] = .s [] ∧
    ConfValue.s [Char.ofNat 1] ≠ ConfValue.s [] := by
  refine ⟨by decide, by decide, by decide, by decide⟩

/-! ## The legacy flat-file parser (src/unnamed/part_000)

`parseFTLconf(fp, key)` rescans the file from the beginning: skip lines
starting with `#` or `;`, take the first line for which
`strstr(line, "KEY=")` succeeds (a *substring* test), and return the
whitespace-trimmed text after the line's first `=` (`find_equals` is
repository code outside `src/`; modelled from the spec, 4.3: "locate the
first non-comment line whose prefix matches `KEY=`, extract and trim the
remainder" — the first `=` of a line whose prefix is `KEY=` is the one
after the key). -/

/-- The characters after the first `=` of a line (`find_equals(...) + 1`). -/
def afterEquals : List Char → List Char
  | [] => []
  | '=' :: rest => rest
  | _ :: rest => afterEquals rest

/-- Does `pat` occur at the start of `s`? -/
def occursAt (pat s : List Char) : Bool :=
  match pat, s with
  | [], _ => true
  | _ :: _, [] => false
  | p :: ps, c :: cs => p == c && occursAt ps cs

/-- `strstr(s, pat) != NULL`: does `pat` occur anywhere in `s`? -/
def strstrB (s pat : List Char) : Bool :=
  if occursAt pat s then true
  else
    match s with
    | [] => false
    | _ :: rest => strstrB rest pat

/-- Is this getline line skipped as a comment (`#` or `;` in column 0)? -/
def isCommentLine (l : List Char) : Bool :=
  l.head? == some '#' || l.head? == some ';'

/-- `parseFTLconf`: first-match scan over the file's lines. -/
def parseFTLconf (file : List (List Char)) (key : List Char) : Option (List Char) :=
  match file with
  | [] => none
  | line :: rest =>
    if isCommentLine line then parseFTLconf rest key
    else if strstrB line (key ++ ['=']) then some (trimWS (afterEquals line))
    else parseFTLconf rest key

/-- The amended specification of `parseFTLconf`, written independently:
the first non-comment line *containing* `KEY=` anywhere (not necessarily
as a prefix) is selected, and the returned value is the trimmed text after
that line's first `=`. -/
def parseFTLconfSpec (file : List (List Char)) (key : List Char) : Option (List Char) :=
  (file.find? (fun l => !isCommentLine l && strstrB l (key ++ ['=']))).map
    (fun l => trimWS (afterEquals l))

/-- C4 (amended): `parseFTLconf` returns the trimmed text after the first
`=` of the first non-comment line that contains `KEY=` as a substring
(first match wins), and `none` when no such line exists. -/
theorem C4_parseFTLconf_first_substring_match (file : List (List Char))
    (key : List Char) : parseFTLconf file key = parseFTLconfSpec file key := by
  induction file with
  | nil => rfl
  | cons line rest ih =>
    unfold parseFTLconf parseFTLconfSpec
    by_cases hc : isCommentLine line = true
    · simp only [hc, if_true, List.find?, Bool.not_true, Bool.false_and]
      exact ih
    · have hc' : isCommentLine line = false := by
        cases h : isCommentLine line
        · rfl
        · exact absurd h hc
      by_cases hs : strstrB line (key ++ ['=']) = true
      · simp [hc', hs, List.find?]
      · have hs' : strstrB line (key ++ ['=']) = false := by
          cases h : strstrB line (key ++ ['='])
          · rfl
          · exact absurd h hs
        simp only [hc', Bool.false_eq_true, if_false, hs', List.find?,
          Bool.not_false, Bool.true_and]
        exact ih

/-- C4 counterexample: the original claim says a line containing `KEY=`
only as an interior substring is never selected; but for the file
consisting of the single line `XKEY=val` the lookup of key `KEY` does
return `val`, because the scan uses `strstr`, and the line's prefix is
`XKEY=`, not `KEY=`. -/
theorem C4_counterexample :
    parseFTLconf [['X', 'K', 'E', 'Y', '=', 'v', 'a', 'l', '\n']]
      ['K', 'E', 'Y'] = some ['v', 'a', 'l'] ∧
    occursAt (['K', 'E', 'Y'] ++ ['=']) ['X', 'K', 'E', 'Y', '=', 'v', 'a', 'l', '\n']
      = false := by
  refine ⟨by decide, by decide⟩

/-! ## `sscanf` models

C `sscanf` returns the number of successful conversions, or `EOF` (`-1`)
when an input failure occurs before the first conversion completes (empty
or all-whitespace input).  The legacy reader mostly tests this result for
truth (`if(sscanf(...))`), which is also true for `EOF`; only
`getPrivacyLevelLegacy` compares `== 1`.  Each model returns the pair
(return code, value-if-assigned); an `EOF` return assigns nothing and the
C variable keeps its previous contents.  Numeric overflow of the C types
on absurdly long digit strings is undefined behaviour in C and out of
scope; the models parse unbounded. -/

/-- Octal digit test, for `%i` base detection. -/
def isoctC (c : Char) : Bool := 48 ≤ c.toNat && c.toNat ≤ 55

/-- Fold octal digit characters. -/
def octOfChars (cs : List Char) : Nat :=
  cs.foldl (fun a c => a * 8 + decValChar c) 0

/-- The conversion core of `%i`: optional sign, then `0x` hex, `0` octal,
or decimal, following `strtol` with base 0. -/
def scanIntCore (cs : List Char) : Option Int :=
  let p := splitSign cs
  let neg := p.1
  let r1 := p.2
  let signed : Nat → Int := fun n => if neg then -(n : Int) else (n : Int)
  match r1 with
  | [] => none
  | '0' :: rest =>
    match rest with
    | x :: t =>
      if x == 'x' || x == 'X' then
        let ds := t.takeWhile isxdigitC
        if ds == [] then some (signed 0) else some (signed (hexOfChars ds))
      else
        some (signed (octOfChars (rest.takeWhile isoctC)))
    | [] => some (signed 0)
  | _ =>
    let ds := r1.takeWhile isdigitC
    if ds == [] then none else some (signed (decOfChars ds))

/-- `sscanf(buf, "%i", &v)`: (return code, assigned value). -/
def sscanf_i (cs : List Char) : Int × Option Int :=
  let rest := cs.dropWhile isspaceC
  if rest == [] then (-1, none)
  else
    match scanIntCore rest with
    | some v => (1, some v)
    | none => (0, none)

/-- `sscanf(buf, "%u", &v)`: optionally signed decimal, converted through
`unsigned int` wrap-around (strtoul-style negation for a leading `-`). -/
def sscanf_u (cs : List Char) : Int × Option Nat :=
  let rest := cs.dropWhile isspaceC
  if rest == [] then (-1, none)
  else
    let p := splitSign rest
    let ds := p.2.takeWhile isdigitC
    if ds == [] then (0, none)
    else
      let n := decOfChars ds % 2 ^ 32
      (1, some (if p.1 then (2 ^ 32 - n) % 2 ^ 32 else n))

/-- `sscanf(buf, "%127ms", &s)`: skip whitespace, read at most 127
non-whitespace characters; never returns `0` (a `%s` conversion cannot
fail on non-empty input after the whitespace skip). -/
def sscanf_ms (cs : List Char) : Int × Option (List Char) :=
  let rest := cs.dropWhile isspaceC
  if rest == [] then (-1, none)
  else (1, some ((rest.takeWhile (fun c => !isspaceC c)).take 127))

/-- `parseBool` (part_000 lines 845-865): case-insensitive
`false`/`no` and `true`/`yes`; returns (found, new value of `*ptr`). -/
def parseBool (buffer : Option (List Char)) (ptr : Bool) : Bool × Bool :=
  match buffer with
  | none => (false, ptr)
  | some s =>
    if strcaseeq s ("false".toList) || strcaseeq s ("no".toList) then (true, false)
    else if strcaseeq s ("true".toList) || strcaseeq s ("yes".toList) then (true, true)
    else (false, ptr)

/-! ## The modelled configuration state

One record field per configuration item the modelled legacy keys and the
facade getters touch.  `check_disk` is a `Bool` because the source stores
`CHECK_DISK` through the union's bool member (`config.misc.check.disk.v.b
= 90`, part_000 line 552): in C, assigning a nonzero `int` to a `_Bool`
stores `true`.  `warnings` counts `log_warn` calls made by the modelled
routines.  Omitted keys (`RESOLVE_*`, `DBINTERVAL`, `MAXLOGAGE`,
`IGNORE_LOCALHOST`, the path/webserver keys, `RATE_LIMIT`, `SHOW_DNSSEC`,
`MOZILLA_CANARY`, `PIHOLE_PTR`, `ADDR2LINE`, `REPLY_WHEN_BUSY`,
`BLOCK_ICLOUD_PR`, `CHECK_LOAD`, `DELAY_STARTUP`, `PARSE_ARP_CACHE`,
`CNAME_DEEP_INSPECT`, `BLOCK_ESNI`, `NAMES_FROM_NETDB`, `EDNS0_ECS`,
`DBIMPORT`, `ANALYZE_ONLY_A_AND_AAAA`, the `DEBUG_*` family and the
webserver keys) write only to fields outside this record and do not read
or write any field in it. -/
structure FTLConfig where
  analyzeAAAA : Bool                      -- dns.analyzeAAAA.v.b
  maxDBdays : Int                         -- database.maxDBdays.v.i
  database_file : Option (List Char)      -- files.database.v.s
  database_file_default : List Char       -- files.database.d.s
  network_expire : Nat                    -- database.network.expire.v.ui
  privacylevel : Int                      -- misc.privacylevel.v.privacy_level
  blockingmode : BlockingMode             -- dns.blockingmode.v.blocking_mode
  blockingmode_default : BlockingMode     -- dns.blockingmode.d.blocking_mode
  refreshNames : RefreshHostnames         -- resolver.refreshNames.v.refresh_hostnames
  host_overwrite_v4 : Bool                -- dns.reply.host.overwrite_v4.v.b
  host_v4 : List Nat                      -- dns.reply.host.v4.v.in_addr
  host_overwrite_v6 : Bool                -- dns.reply.host.overwrite_v6.v.b
  host_v6 : List Nat                      -- dns.reply.host.v6.v.in6_addr
  blocking_overwrite_v4 : Bool            -- dns.reply.blocking.overwrite_v4.v.b
  blocking_v4 : List Nat                  -- dns.reply.blocking.v4.v.in_addr
  blocking_overwrite_v6 : Bool            -- dns.reply.blocking.overwrite_v6.v.b
  blocking_v6 : List Nat                  -- dns.reply.blocking.v6.v.in6_addr
  blockTTL : Nat                          -- dns.blockTTL.v.ui
  check_shmem : Nat                       -- misc.check.shmem.v.ui
  check_disk : Bool                       -- misc.check.disk.v.b (bool-typed!)
  files_log : Option (List Char)          -- files.log.v.s
  warnings : Nat                          -- log_warn calls
deriving DecidableEq

/-- A concrete state with the documented defaults, used by witnesses. -/
def sampleConfig : FTLConfig where
  analyzeAAAA := true
  maxDBdays := 365
  database_file := some ("/etc/pihole/pihole-FTL.db".toList)
  database_file_default := "/etc/pihole/pihole-FTL.db".toList
  network_expire := 365
  privacylevel := 0
  blockingmode := .MODE_IP
  blockingmode_default := .MODE_IP
  refreshNames := .REFRESH_IPV4_ONLY
  host_overwrite_v4 := false
  host_v4 := [0, 0, 0, 0]
  host_overwrite_v6 := false
  host_v6 := [0, 0, 0, 0, 0, 0, 0, 0]
  blocking_overwrite_v4 := false
  blocking_v4 := [0, 0, 0, 0]
  blocking_overwrite_v6 := false
  blocking_v6 := [0, 0, 0, 0, 0, 0, 0, 0]
  blockTTL := 2
  check_shmem := 90
  check_disk := true
  files_log := some ("/var/log/pihole/FTL.log".toList)
  warnings := 0

/-! ## The legacy key handlers (readFTLlegacy, src/unnamed/part_000)

Each handler takes the result of `parseFTLconf` for its key and the
current state.  `ivalue` (the reused local of lines 336/545/555) is
threaded explicitly through the three handlers that share it. -/

def INT_MAX : Int := 2147483647

/-- `INT_MAX / 24 / 60 / 60` (part_000 line 112). -/
def maxdbdays_max : Int := INT_MAX / 24 / 60 / 60

def legacy_AAAA_QUERY_ANALYSIS (buf : Option (List Char)) (st : FTLConfig) :
    FTLConfig :=
  { st with analyzeAAAA := (parseBool buf st.analyzeAAAA).2 }

/-- MAXDBDAYS (lines 107-122): parse `%i`, clamp values above
`maxdbdays_max`, store only `-1` or nonnegative values. -/
def legacy_MAXDBDAYS (buf : Option (List Char)) (st : FTLConfig) : FTLConfig :=
  match buf with
  | none => st
  | some b =>
    let r := sscanf_i b
    if r.1 ≠ 0 then
      let v0 := r.2.getD 0        -- `int value = 0;`: EOF assigns nothing
      let v1 := if maxdbdays_max < v0 then maxdbdays_max else v0
      if v1 = -1 ∨ 0 ≤ v1 then { st with maxDBdays := v1 } else st
    else st

/-- DBFILE (lines 148-165): take the `%127ms` token, else the default
path; an empty resulting path falls back to the default and forces
`maxDBdays := 0`. -/
def legacy_DBFILE (buf : Option (List Char)) (st : FTLConfig) : FTLConfig :=
  let st1 :=
    match buf with
    | none => { st with database_file := some st.database_file_default }
    | some b =>
      match (sscanf_ms b).2 with
      | some s => { st with database_file := some s }
      | none => st        -- EOF return is truthy; nothing was assigned
  if st1.database_file = none ∨ st1.database_file = some [] then
    { st1 with database_file := some st1.database_file_default, maxDBdays := 0 }
  else st1

/-- The value update of `getPrivacyLevelLegacy` (lines 712-723): requires
`sscanf(...) == 1`, a level within `PRIVACY_SHOW_ALL ..= PRIVACY_MAXIMUM`,
and strictly above the current level. -/
def privacyUpdate (buf : Option (List Char)) (st : FTLConfig) : FTLConfig :=
  match buf with
  | none => st
  | some b =>
    let r := sscanf_i b
    if r.1 = 1 then
      let v := r.2.getD 0
      if PRIVACY_SHOW_ALL ≤ v ∧ v ≤ PRIVACY_MAXIMUM ∧ st.privacylevel < v then
        { st with privacylevel := v }
      else st
    else st

/-- `getPrivacyLevelLegacy` (lines 698-731): silently returns when no
config file is available; otherwise looks up `PRIVACYLEVEL`. -/
def getPrivacyLevelLegacy (file : Option (List (List Char))) (st : FTLConfig) :
    FTLConfig :=
  match file with
  | none => st
  | some lines => privacyUpdate (parseFTLconf lines ("PRIVACYLEVEL".toList)) st

/-- `getBlockingModeLegacy` (lines 733-774): first re-establishes the
item's default, then resolves the value case-insensitively; an unknown
value logs a warning (and the default stands). -/
def getBlockingModeLegacy (file : Option (List (List Char))) (st : FTLConfig) :
    FTLConfig :=
  let st0 := { st with blockingmode := st.blockingmode_default }
  match file with
  | none => st0
  | some lines =>
    match parseFTLconf lines ("BLOCKINGMODE".toList) with
    | none => st0
    | some b =>
      if strcaseeq b ("NXDOMAIN".toList) then
        { st0 with blockingmode := .MODE_NX }
      else if strcaseeq b ("NULL".toList) then
        { st0 with blockingmode := .MODE_NULL }
      else if strcaseeq b ("IP-NODATA-AAAA".toList) then
        { st0 with blockingmode := .MODE_IP_NODATA_AAAA }
      else if strcaseeq b ("IP".toList) then
        { st0 with blockingmode := .MODE_IP }
      else if strcaseeq b ("NODATA".toList) then
        { st0 with blockingmode := .MODE_NODATA }
      else
        { st0 with warnings := st0.warnings + 1 }

/-- MAXNETAGE (lines 330-340): one combined condition
`buffer && sscanf(...) && 0 < ivalue && ivalue <= 8760`. -/
def legacy_MAXNETAGE (buf : Option (List Char)) (st : FTLConfig) (ivalue : Int) :
    FTLConfig × Int :=
  match buf with
  | none => (st, ivalue)
  | some b =>
    let r := sscanf_i b
    let iv := r.2.getD ivalue
    if r.1 ≠ 0 ∧ 0 < iv ∧ iv ≤ 8760 then
      ({ st with network_expire := iv.toNat }, iv)
    else (st, iv)

/-- REFRESH_HOSTNAMES (lines 360-371): `ALL`/`NONE`/`UNKNOWN` match
case-insensitively; *everything else* — including an absent key — stores
`REFRESH_IPV4_ONLY` through the final `else`. -/
def legacy_REFRESH_HOSTNAMES (buf : Option (List Char)) (st : FTLConfig) :
    FTLConfig :=
  match buf with
  | some b =>
    if strcaseeq b ("ALL".toList) then { st with refreshNames := .REFRESH_ALL }
    else if strcaseeq b ("NONE".toList) then { st with refreshNames := .REFRESH_NONE }
    else if strcaseeq b ("UNKNOWN".toList) then
      { st with refreshNames := .REFRESH_UNKNOWN }
    else { st with refreshNames := .REFRESH_IPV4_ONLY }
  | none => { st with refreshNames := .REFRESH_IPV4_ONLY }

/-- LOCAL_IPV4 (lines 387-395): clear flag and address, then parse. -/
def legacy_LOCAL_IPV4 (buf : Option (List Char)) (st : FTLConfig) : FTLConfig :=
  let st1 := { st with host_overwrite_v4 := false, host_v4 := [0, 0, 0, 0] }
  match buf with
  | none => st1
  | some b =>
    match inet_pton4 b with
    | some a => { st1 with host_v4 := a, host_overwrite_v4 := true }
    | none => st1

/-- LOCAL_IPV6 (lines 397-405). -/
def legacy_LOCAL_IPV6 (buf : Option (List Char)) (st : FTLConfig) : FTLConfig :=
  let st1 := { st with
    host_overwrite_v6 := false
    host_v6 := [0, 0, 0, 0, 0, 0, 0, 0] }
  match buf with
  | none => st1
  | some b =>
    match inet_pton6 b with
    | some a => { st1 with host_v6 := a, host_overwrite_v6 := true }
    | none => st1

/-- BLOCK_IPV4 (lines 407-414). -/
def legacy_BLOCK_IPV4 (buf : Option (List Char)) (st : FTLConfig) : FTLConfig :=
  let st1 := { st with blocking_overwrite_v4 := false, blocking_v4 := [0, 0, 0, 0] }
  match buf with
  | none => st1
  | some b =>
    match inet_pton4 b with
    | some a => { st1 with blocking_v4 := a, blocking_overwrite_v4 := true }
    | none => st1

/-- BLOCK_IPV6 (lines 416-423). -/
def legacy_BLOCK_IPV6 (buf : Option (List Char)) (st : FTLConfig) : FTLConfig :=
  let st1 := { st with
    blocking_overwrite_v6 := false
    blocking_v6 := [0, 0, 0, 0, 0, 0, 0, 0] }
  match buf with
  | none => st1
  | some b =>
    match inet_pton6 b with
    | some a => { st1 with blocking_v6 := a, blocking_overwrite_v6 := true }
    | none => st1

/-- REPLY_ADDR4 (lines 425-444): a valid dotted quad is ignored with a
warning when either v4 overwrite flag is already set; otherwise it
populates both the host-reply and the blocking v4 items. -/
def legacy_REPLY_ADDR4 (buf : Option (List Char)) (st : FTLConfig) : FTLConfig :=
  match buf with
  | none => st
  | some b =>
    match inet_pton4 b with
    | none => st
    | some a =>
      if st.host_overwrite_v4 || st.blocking_overwrite_v4 then
        { st with warnings := st.warnings + 1 }
      else
        { st with host_overwrite_v4 := true, host_v4 := a,
                  blocking_overwrite_v4 := true, blocking_v4 := a }

/-- The first four bytes of an `in6_addr` as its leading 16-bit groups;
the remaining twelve bytes, which the source `memcpy`s from uninitialized
stack memory (undefined behaviour), are modelled as zero. -/
def in6OfBytes4 (a : List Nat) : List Nat :=
  match a with
  | [b0, b1, b2, b3] => [b0 * 256 + b1, b2 * 256 + b3, 0, 0, 0, 0, 0, 0]
  | _ => []

/-- REPLY_ADDR6 (lines 446-465).  The source parses the buffer with
`inet_pton(AF_INET, buffer, &reply_addr6)` — the **IPv4** family (line
452) — so a colon-hex IPv6 text never parses here and the handler does
nothing for it; only a dotted quad would enter the overwrite logic. -/
def legacy_REPLY_ADDR6 (buf : Option (List Char)) (st : FTLConfig) : FTLConfig :=
  match buf with
  | none => st
  | some b =>
    match inet_pton4 b with
    | none => st
    | some a =>
      if st.host_overwrite_v6 || st.blocking_overwrite_v6 then
        { st with warnings := st.warnings + 1 }
      else
        { st with host_overwrite_v6 := true, host_v6 := in6OfBytes4 a,
                  blocking_overwrite_v6 := true, blocking_v6 := in6OfBytes4 a }

/-- BLOCK_TTL (lines 516-523): unconditionally re-establish the
hard-coded default `2`, then overwrite with any `%u` parse; the local
`uval` is freshly zero-initialized, so an empty value (EOF, which is
truthy) stores `0`. -/
def legacy_BLOCK_TTL (buf : Option (List Char)) (st : FTLConfig) : FTLConfig :=
  let st1 := { st with blockTTL := 2 }
  match buf with
  | none => st1
  | some b =>
    let r := sscanf_u b
    if r.1 ≠ 0 then { st1 with blockTTL := r.2.getD 0 } else st1

/-- CHECK_SHMEM (lines 539-547): unconditionally re-establish the
hard-coded default `90`, then accept a `%i` value in `0 ..= 100`. -/
def legacy_CHECK_SHMEM (buf : Option (List Char)) (st : FTLConfig)
    (ivalue : Int) : FTLConfig × Int :=
  let st1 := { st with check_shmem := 90 }
  match buf with
  | none => (st1, ivalue)
  | some b =>
    let r := sscanf_i b
    let iv := r.2.getD ivalue
    if r.1 ≠ 0 ∧ 0 ≤ iv ∧ iv ≤ 100 then ({ st1 with check_shmem := iv.toNat }, iv)
    else (st1, iv)

/-- CHECK_DISK (lines 549-557): as CHECK_SHMEM, but the target field is
the union's **bool** member, so `= 90` stores `true` and an accepted value
stores `value != 0`. -/
def legacy_CHECK_DISK (buf : Option (List Char)) (st : FTLConfig)
    (ivalue : Int) : FTLConfig × Int :=
  let st1 := { st with check_disk := true }
  match buf with
  | none => (st1, ivalue)
  | some b =>
    let r := sscanf_i b
    let iv := r.2.getD ivalue
    if r.1 ≠ 0 ∧ 0 ≤ iv ∧ iv ≤ 100 then ({ st1 with check_disk := iv != 0 }, iv)
    else (st1, iv)

/-- `readFTLlegacy` (lines 92-572), restricted to the handlers that read
or write the modelled state, in source order.  `none` models "no config
file could be opened" (the function returns NULL at once). -/
def readFTLlegacy (file : Option (List (List Char))) (st : FTLConfig) :
    FTLConfig :=
  match file with
  | none => st
  | some lines =>
    let st := legacy_AAAA_QUERY_ANALYSIS
      (parseFTLconf lines ("AAAA_QUERY_ANALYSIS".toList)) st
    let st := legacy_MAXDBDAYS (parseFTLconf lines ("MAXDBDAYS".toList)) st
    let st := legacy_DBFILE (parseFTLconf lines ("DBFILE".toList)) st
    let st := privacyUpdate (parseFTLconf lines ("PRIVACYLEVEL".toList)) st
    let st := getBlockingModeLegacy (some lines) st
    let p := legacy_MAXNETAGE (parseFTLconf lines ("MAXNETAGE".toList)) st 0
    let st := legacy_REFRESH_HOSTNAMES
      (parseFTLconf lines ("REFRESH_HOSTNAMES".toList)) p.1
    let st := legacy_LOCAL_IPV4 (parseFTLconf lines ("LOCAL_IPV4".toList)) st
    let st := legacy_LOCAL_IPV6 (parseFTLconf lines ("LOCAL_IPV6".toList)) st
    let st := legacy_BLOCK_IPV4 (parseFTLconf lines ("BLOCK_IPV4".toList)) st
    let st := legacy_BLOCK_IPV6 (parseFTLconf lines ("BLOCK_IPV6".toList)) st
    let st := legacy_REPLY_ADDR4 (parseFTLconf lines ("REPLY_ADDR4".toList)) st
    let st := legacy_REPLY_ADDR6 (parseFTLconf lines ("REPLY_ADDR6".toList)) st
    let st := legacy_BLOCK_TTL (parseFTLconf lines ("BLOCK_TTL".toList)) st
    let q := legacy_CHECK_SHMEM (parseFTLconf lines ("CHECK_SHMEM".toList)) st p.2
    let r := legacy_CHECK_DISK (parseFTLconf lines ("CHECK_DISK".toList)) q.1 q.2
    r.1

/-- `getLogFilePathLegacy` (lines 52-89): `false` only when no file could
be opened; an absent `LOGFILE` key stores the default path; a present key
runs `sscanf(%127ms)` and compares the result with `0` — a comparison
that can never hit, because an empty (already-trimmed) value makes
`sscanf` return `EOF` (`-1`), which assigns nothing and keeps the prior
string. -/
def getLogFilePathLegacy (file : Option (List (List Char))) (st : FTLConfig) :
    Bool × FTLConfig :=
  match file with
  | none => (false, st)
  | some lines =>
    match parseFTLconf lines ("LOGFILE".toList) with
    | none =>
      (true, { st with files_log := some ("/var/log/pihole/FTL.log".toList) })
    | some b =>
      let r := sscanf_ms b
      if r.1 = 0 then (true, { st with files_log := none })
      else
        (true, { st with files_log :=
          match r.2 with
          | some s => some s
          | none => st.files_log })

/-- C3 (amended): for the legacy keys whose handlers assign only after a
successful parse (the `parseBool` keys, MAXDBDAYS, PRIVACYLEVEL,
MAXNETAGE, ...), an absent key or a malformed value leaves the item's
prior value in place; but the handlers for BLOCKINGMODE,
REFRESH_HOSTNAMES, LOCAL_IPV4/LOCAL_IPV6/BLOCK_IPV4/BLOCK_IPV6 (and
through them REPLY_ADDR4/6), BLOCK_TTL, CHECK_SHMEM and CHECK_DISK first
overwrite their items unconditionally (with the item default, or the
hard-coded constants `REFRESH_IPV4_ONLY`, unset/zero addresses, `2`, `90`
and `90`-as-`true` respectively), so for those items a missing key resets
the item to that constant rather than preserving the pre-call value; and
an absent DBFILE re-stores the default database path. -/
theorem C3_absent_and_malformed (st : FTLConfig)
    (hdb : st.database_file_default ≠ []) :
    readFTLlegacy (some []) st =
      { st with
        database_file := some st.database_file_default
        blockingmode := st.blockingmode_default
        refreshNames := .REFRESH_IPV4_ONLY
        host_overwrite_v4 := false
        host_v4 := [0, 0, 0, 0]
        host_overwrite_v6 := false
        host_v6 := [0, 0, 0, 0, 0, 0, 0, 0]
        blocking_overwrite_v4 := false
        blocking_v4 := [0, 0, 0, 0]
        blocking_overwrite_v6 := false
        blocking_v6 := [0, 0, 0, 0, 0, 0, 0, 0]
        blockTTL := 2
        check_shmem := 90
        check_disk := true } ∧
    (readFTLlegacy
        (some [("AAAA_QUERY_ANALYSIS=maybe\n".toList), ("MAXDBDAYS=-5\n".toList)])
        { sampleConfig with analyzeAAAA := false, maxDBdays := 123 }).analyzeAAAA
      = false ∧
    (readFTLlegacy
        (some [("AAAA_QUERY_ANALYSIS=maybe\n".toList), ("MAXDBDAYS=-5\n".toList)])
        { sampleConfig with analyzeAAAA := false, maxDBdays := 123 }).maxDBdays
      = 123 := by
  refine ⟨?_, by decide, by decide⟩
  simp only [readFTLlegacy, parseFTLconf, legacy_AAAA_QUERY_ANALYSIS, parseBool,
    legacy_MAXDBDAYS, legacy_DBFILE, privacyUpdate, getBlockingModeLegacy,
    legacy_MAXNETAGE, legacy_REFRESH_HOSTNAMES, legacy_LOCAL_IPV4,
    legacy_LOCAL_IPV6, legacy_BLOCK_IPV4, legacy_BLOCK_IPV6,
    legacy_REPLY_ADDR4, legacy_REPLY_ADDR6, legacy_BLOCK_TTL,
    legacy_CHECK_SHMEM, legacy_CHECK_DISK]
  rw [if_neg (by simp [hdb])]

/-- Witness for `C3_absent_and_malformed` at the default-filled state. -/
theorem C3_absent_and_malformed_witness :
    readFTLlegacy (some []) sampleConfig =
      { sampleConfig with
        database_file := some sampleConfig.database_file_default
        blockingmode := sampleConfig.blockingmode_default
        refreshNames := .REFRESH_IPV4_ONLY
        host_overwrite_v4 := false
        host_v4 := [0, 0, 0, 0]
        host_overwrite_v6 := false
        host_v6 := [0, 0, 0, 0, 0, 0, 0, 0]
        blocking_overwrite_v4 := false
        blocking_v4 := [0, 0, 0, 0]
        blocking_overwrite_v6 := false
        blocking_v6 := [0, 0, 0, 0, 0, 0, 0, 0]
        blockTTL := 2
        check_shmem := 90
        check_disk := true } ∧
    (readFTLlegacy
        (some [("AAAA_QUERY_ANALYSIS=maybe\n".toList), ("MAXDBDAYS=-5\n".toList)])
        { sampleConfig with analyzeAAAA := false, maxDBdays := 123 }).analyzeAAAA
      = false ∧
    (readFTLlegacy
        (some [("AAAA_QUERY_ANALYSIS=maybe\n".toList), ("MAXDBDAYS=-5\n".toList)])
        { sampleConfig with analyzeAAAA := false, maxDBdays := 123 }).maxDBdays
      = 123 :=
  C3_absent_and_malformed sampleConfig (by decide)

/-- C3 counterexample: the original claim says no legacy handler
overwrites an item with a hard-coded constant merely because its key is
missing; but running `readFTLlegacy` over a file without any keys resets
a `REFRESH_HOSTNAMES` value of `REFRESH_ALL` to `REFRESH_IPV4_ONLY`. -/
theorem C3_counterexample :
    ({ sampleConfig with refreshNames := .REFRESH_ALL } : FTLConfig).refreshNames
      = .REFRESH_ALL ∧
    (readFTLlegacy (some [])
        { sampleConfig with refreshNames := .REFRESH_ALL }).refreshNames
      = .REFRESH_IPV4_ONLY := by
  refine ⟨rfl, by decide⟩

/-- C5: behaviour of the deprecated address keys.  (a) With `LOCAL_IPV4`
already set, a valid `REPLY_ADDR4` is ignored for both v4 items and a
warning is counted.  (b) With neither newer v4 key set, `REPLY_ADDR4`
populates both the host-reply and the blocking IPv4 items.  (c) The IPv6
side of the claim fails on the code: `0:0:0:0:0:0:0:1` is a syntactically
valid colon-hex address (third conjunct of (c)), no v6 overwrite flag is
set, yet after the load both v6 items remain unset, because line 452
parses `REPLY_ADDR6` with `inet_pton(AF_INET, ...)`. -/
theorem C5_reply_addr_behavior :
    ((readFTLlegacy
        (some [("LOCAL_IPV4=10.0.0.1\n".toList), ("REPLY_ADDR4=1.2.3.4\n".toList)])
        sampleConfig).host_overwrite_v4 = true ∧
     (readFTLlegacy
        (some [("LOCAL_IPV4=10.0.0.1\n".toList), ("REPLY_ADDR4=1.2.3.4\n".toList)])
        sampleConfig).host_v4 = [10, 0, 0, 1] ∧
     (readFTLlegacy
        (some [("LOCAL_IPV4=10.0.0.1\n".toList), ("REPLY_ADDR4=1.2.3.4\n".toList)])
        sampleConfig).blocking_overwrite_v4 = false ∧
     (readFTLlegacy
        (some [("LOCAL_IPV4=10.0.0.1\n".toList), ("REPLY_ADDR4=1.2.3.4\n".toList)])
        sampleConfig).warnings = 1) ∧
    ((readFTLlegacy (some [("REPLY_ADDR4=1.2.3.4\n".toList)])
        sampleConfig).host_overwrite_v4 = true ∧
     (readFTLlegacy (some [("REPLY_ADDR4=1.2.3.4\n".toList)])
        sampleConfig).host_v4 = [1, 2, 3, 4] ∧
     (readFTLlegacy (some [("REPLY_ADDR4=1.2.3.4\n".toList)])
        sampleConfig).blocking_overwrite_v4 = true ∧
     (readFTLlegacy (some [("REPLY_ADDR4=1.2.3.4\n".toList)])
        sampleConfig).blocking_v4 = [1, 2, 3, 4] ∧
     (readFTLlegacy (some [("REPLY_ADDR4=1.2.3.4\n".toList)])
        sampleConfig).warnings = 0) ∧
    (inet_pton6 ("0:0:0:0:0:0:0:1".toList) = some [0, 0, 0, 0, 0, 0, 0, 1] ∧
     (readFTLlegacy (some [("REPLY_ADDR6=0:0:0:0:0:0:0:1\n".toList)])
        sampleConfig).host_overwrite_v6 = false ∧
     (readFTLlegacy (some [("REPLY_ADDR6=0:0:0:0:0:0:0:1\n".toList)])
        sampleConfig).blocking_overwrite_v6 = false ∧
     (readFTLlegacy (some [("REPLY_ADDR6=0:0:0:0:0:0:0:1\n".toList)])
        sampleConfig).warnings = 0) := by
  refine ⟨⟨by decide, by decide, by decide, by decide⟩,
          ⟨by decide, by decide, by decide, by decide, by decide⟩,
          ⟨by decide, by decide, by decide, by decide⟩⟩

/-- C6: the MAXDBDAYS rules, for any buffer whose `%i` parse yields `v`:
values above `INT_MAX/86400 = 24855` are clamped to it; values below `-1`
are rejected (prior value stands); `-1` is stored verbatim; any value in
`0 ..= 24855` is stored verbatim. -/
theorem C6_maxdbdays (st : FTLConfig) (b : List Char) (v : Int)
    (hr : sscanf_i b = (1, some v)) :
    (maxdbdays_max < v →
      legacy_MAXDBDAYS (some b) st = { st with maxDBdays := maxdbdays_max }) ∧
    (v < -1 → legacy_MAXDBDAYS (some b) st = st) ∧
    (v = -1 → legacy_MAXDBDAYS (some b) st = { st with maxDBdays := -1 }) ∧
    (0 ≤ v → v ≤ maxdbdays_max →
      legacy_MAXDBDAYS (some b) st = { st with maxDBdays := v }) ∧
    maxdbdays_max = 24855 := by
  have hm : maxdbdays_max = 24855 := by decide
  refine ⟨?_, ?_, ?_, ?_, hm⟩
  · intro h
    have h2c : maxdbdays_max = -1 ∨ 0 ≤ maxdbdays_max := Or.inr (by rw [hm]; omega)
    simp only [legacy_MAXDBDAYS, hr, Option.getD_some]
    rw [if_pos (show (1 : Int) ≠ 0 by decide), if_pos h, if_pos h2c]
  · intro h
    have h1 : ¬ (maxdbdays_max < v) := by rw [hm]; omega
    have h2c : ¬ (v = -1 ∨ 0 ≤ v) := by omega
    simp only [legacy_MAXDBDAYS, hr, Option.getD_some]
    rw [if_pos (show (1 : Int) ≠ 0 by decide), if_neg h1, if_neg h2c]
  · intro h
    subst h
    have h1 : ¬ (maxdbdays_max < -1) := by rw [hm]; omega
    have h2c : (-1 : Int) = -1 ∨ 0 ≤ (-1 : Int) := Or.inl rfl
    simp only [legacy_MAXDBDAYS, hr, Option.getD_some]
    rw [if_pos (show (1 : Int) ≠ 0 by decide), if_neg h1, if_pos h2c]
  · intro h0 h1
    have hn : ¬ (maxdbdays_max < v) := by omega
    have h2c : v = -1 ∨ 0 ≤ v := Or.inr h0
    simp only [legacy_MAXDBDAYS, hr, Option.getD_some]
    rw [if_pos (show (1 : Int) ≠ 0 by decide), if_neg hn, if_pos h2c]

/-- Witness for `C6_maxdbdays`: the spec's own instances
`999999999` (clamped), `-5` (rejected), `-1` (verbatim), `42` (verbatim). -/
theorem C6_maxdbdays_witness :
    legacy_MAXDBDAYS (some ("999999999".toList)) sampleConfig =
      { sampleConfig with maxDBdays := maxdbdays_max } ∧
    legacy_MAXDBDAYS (some ("-5".toList)) sampleConfig = sampleConfig ∧
    legacy_MAXDBDAYS (some ("-1".toList)) sampleConfig =
      { sampleConfig with maxDBdays := -1 } ∧
    legacy_MAXDBDAYS (some ("42".toList)) sampleConfig =
      { sampleConfig with maxDBdays := 42 } :=
  ⟨(C6_maxdbdays sampleConfig _ 999999999 (by decide)).1 (by decide),
   (C6_maxdbdays sampleConfig _ (-5) (by decide)).2.1 (by decide),
   (C6_maxdbdays sampleConfig _ (-1) (by decide)).2.2.1 rfl,
   (C6_maxdbdays sampleConfig _ 42 (by decide)).2.2.2.1 (by decide) (by decide)⟩

/-- C7: `getPrivacyLevelLegacy` never lowers the stored privacy level:
for every file content and starting level the level after the call is at
least the level before; with a starting level of `1` and a file containing
`PRIVACYLEVEL=0` the level remains `1`; and a parsed in-range value
strictly greater than the current level replaces it. -/
theorem C7_privacy_monotone :
    (∀ file st, st.privacylevel ≤ (getPrivacyLevelLegacy file st).privacylevel) ∧
    (∀ st : FTLConfig, st.privacylevel = 1 →
      getPrivacyLevelLegacy (some [("PRIVACYLEVEL=0\n".toList)]) st = st) ∧
    (∀ (st : FTLConfig) (v : Int) (b : List Char), sscanf_i b = (1, some v) →
      PRIVACY_SHOW_ALL ≤ v → v ≤ PRIVACY_MAXIMUM → st.privacylevel < v →
      privacyUpdate (some b) st = { st with privacylevel := v }) := by
  refine ⟨?_, ?_, ?_⟩
  · intro file st
    cases file with
    | none => exact le_refl _
    | some lines =>
      show st.privacylevel ≤
        (privacyUpdate (parseFTLconf lines ("PRIVACYLEVEL".toList)) st).privacylevel
      cases hbuf : parseFTLconf lines ("PRIVACYLEVEL".toList) with
      | none => exact le_refl _
      | some b =>
        simp only [privacyUpdate]
        split
        · split
          · next hcond => simp only; omega
          · exact le_refl _
        · exact le_refl _
  · intro st h1
    have hp : parseFTLconf [("PRIVACYLEVEL=0\n".toList)] ("PRIVACYLEVEL".toList)
        = some ['0'] := by decide
    have hs : sscanf_i ['0'] = (1, some 0) := by decide
    have hcond : ¬ (PRIVACY_SHOW_ALL ≤ (0 : Int) ∧ (0 : Int) ≤ PRIVACY_MAXIMUM ∧
        st.privacylevel < 0) := by
      intro hC
      rw [h1] at hC
      exact absurd hC.2.2 (by decide)
    simp only [getPrivacyLevelLegacy, hp, privacyUpdate, hs, Option.getD_some]
    rw [if_pos trivial, if_neg hcond]
  · intro st v b hr h0 h3 hlt
    have hcond : PRIVACY_SHOW_ALL ≤ v ∧ v ≤ PRIVACY_MAXIMUM ∧ st.privacylevel < v :=
      ⟨h0, h3, hlt⟩
    simp only [privacyUpdate, hr, Option.getD_some]
    rw [if_pos trivial, if_pos hcond]

/-- Witness for `C7_privacy_monotone`: starting level 1 with
`PRIVACYLEVEL=0` stays 1; a parsed value 2 above level 0 is stored. -/
theorem C7_privacy_monotone_witness :
    sampleConfig.privacylevel ≤
      (getPrivacyLevelLegacy (some []) sampleConfig).privacylevel ∧
    getPrivacyLevelLegacy (some [("PRIVACYLEVEL=0\n".toList)])
      { sampleConfig with privacylevel := 1 } =
      { sampleConfig with privacylevel := 1 } ∧
    privacyUpdate (some ("2".toList)) sampleConfig =
      { sampleConfig with privacylevel := 2 } :=
  ⟨C7_privacy_monotone.1 (some []) sampleConfig,
   C7_privacy_monotone.2.1 _ rfl,
   C7_privacy_monotone.2.2 sampleConfig 2 _ (by decide) (by decide) (by decide)
     (by decide)⟩

/-- C8: legacy BLOCKINGMODE resolution is case-insensitive — `nxdomain`,
`NXDOMAIN` and `NxDomain` all yield `MODE_NX` — and an unrecognized value
such as `bogus` leaves the mode at the item's default (which the routine
re-establishes on entry) while logging a warning. -/
theorem C8_blockingmode_case_insensitive (st : FTLConfig) :
    (getBlockingModeLegacy (some [("BLOCKINGMODE=nxdomain\n".toList)]) st).blockingmode
      = .MODE_NX ∧
    (getBlockingModeLegacy (some [("BLOCKINGMODE=NXDOMAIN\n".toList)]) st).blockingmode
      = .MODE_NX ∧
    (getBlockingModeLegacy (some [("BLOCKINGMODE=NxDomain\n".toList)]) st).blockingmode
      = .MODE_NX ∧
    getBlockingModeLegacy (some [("BLOCKINGMODE=bogus\n".toList)]) st =
      { st with blockingmode := st.blockingmode_default
                warnings := st.warnings + 1 } := by
  exact ⟨rfl, rfl, rfl, rfl⟩

/-- C10: `getLogFilePathLegacy` behaviour.  A file without a `LOGFILE`
line stores the default path and returns `true`; no openable file returns
`false` with the state untouched.  But a present `LOGFILE` with an empty
value does **not** store NULL: the `sscanf(%127ms) == 0` branch is dead
(empty input returns `EOF`), so the prior string value is kept — shown by
the third conjunct, where the value remains the default path instead of
becoming `none`. -/
theorem C10_logfile_behavior :
    (∀ st : FTLConfig, getLogFilePathLegacy (some [("OTHER=x\n".toList)]) st =
      (true, { st with files_log := some ("/var/log/pihole/FTL.log".toList) })) ∧
    (∀ st : FTLConfig, getLogFilePathLegacy none st = (false, st)) ∧
    getLogFilePathLegacy (some [("LOGFILE=\n".toList)]) sampleConfig =
      (true, sampleConfig) ∧
    sampleConfig.files_log = some ("/var/log/pihole/FTL.log".toList) := by
  exact ⟨fun st => rfl, fun st => rfl, by decide, rfl⟩

/-! ## The structured-format facade (src/unnamed/part_001)

`parseTOML` opens the structured file and runs `toml_parse_file`,
returning NULL when the file is absent or its document has a syntax
error.  The document parser itself is vendored `tomlc99` code not under
`src/`; modelled from the spec (6: "`.toml`-style nested-table document;
top-level sections include at least `debug`, `misc`, `dns`, `files`"):
blank and `#` lines are skipped, `[name]` opens a section, `key = value`
adds a typed leaf, anything else is a syntax error that fails the whole
parse. -/

/-- A parsed document: top-level sections, each a table of leaves. -/
abbrev TomlDoc := List (List Char × TomlTable)

/-- `toml_table_in` at the document root. -/
def toml_table_in (doc : TomlDoc) (k : List Char) : Option TomlTable :=
  (List.find? (fun e => e.1 == k) doc).map (fun e => e.2)

/-- Append one `key = value` leaf to a section (creating the section). -/
def addToSection : TomlDoc → List Char → (List Char × TomlDatum) → TomlDoc
  | [], sec, e => [(sec, [e])]
  | (n, t) :: rest, sec, e =>
    if n == sec then (n, t ++ [e]) :: rest
    else (n, t) :: addToSection rest sec e

/-- Line-by-line document parse; `sec` is the open section (top level
is the empty name). -/
def tomlParseGo : List (List Char) → List Char → TomlDoc → Option TomlDoc
  | [], _, doc => some doc
  | l :: ls, sec, doc =>
    let t := trimWS l
    if t == [] then tomlParseGo ls sec doc
    else if t.head? == some '#' then tomlParseGo ls sec doc
    else if t.head? == some '[' then
      if t.getLast? == some ']' then
        tomlParseGo ls (trimWS (t.drop 1).dropLast) doc
      else none
    else
      match (t.dropWhile (fun c => !(c == '='))) with
      | '=' :: v =>
        match parseTomlValue (trimWS v) with
        | some d =>
          tomlParseGo ls sec
            (addToSection doc sec (trimWS (t.takeWhile (fun c => !(c == '='))), d))
        | none => none
      | _ => none

/-- `toml_parse_file`. -/
def toml_parse_file (cs : List Char) : Option TomlDoc :=
  tomlParseGo (cs.splitOn '\n') [] []

/-- `parseTOML` (part_001 lines 84-109): `none` when no file is available
or the document fails to parse. -/
def parseTOML (file : Option (List Char)) : Option TomlDoc :=
  match file with
  | none => none
  | some cs => toml_parse_file cs

/-- `getPrivacyLevel` (part_001 lines 111-146). -/
def getPrivacyLevel (file : Option (List Char)) (st : FTLConfig) :
    Bool × FTLConfig :=
  match parseTOML file with
  | none => (false, st)
  | some conf =>
    match toml_table_in conf ("misc".toList) with
    | none => (false, st)
    | some misc =>
      match toml_int_in misc ("privacyLevel".toList) with
      | none => (false, st)
      | some v =>
        if PRIVACY_SHOW_ALL ≤ v ∧ v ≤ PRIVACY_MAXIMUM then
          (true, { st with privacylevel := v })
        else (true, { st with warnings := st.warnings + 1 })

/-- `getBlockingMode` (part_001 lines 148-187). -/
def getBlockingMode (file : Option (List Char)) (st : FTLConfig) :
    Bool × FTLConfig :=
  match parseTOML file with
  | none => (false, st)
  | some conf =>
    match toml_table_in conf ("dns".toList) with
    | none => (false, st)
    | some dns =>
      match toml_string_in dns ("blockingmode".toList) with
      | none => (false, st)
      | some s =>
        match get_blocking_mode_val s with
        | some bm => (true, { st with blockingmode := bm })
        | none => (true, { st with warnings := st.warnings + 1 })

/-- `getLogFilePathTOML` (part_001 lines 189-221). -/
def getLogFilePathTOML (file : Option (List Char)) (st : FTLConfig) :
    Bool × FTLConfig :=
  match parseTOML file with
  | none => (false, st)
  | some conf =>
    match toml_table_in conf ("files".toList) with
    | none => (false, st)
    | some files =>
      match toml_string_in files ("log".toList) with
      | none => (false, st)
      | some s => (true, { st with files_log := some s })

/-- C9: when the structured config file is entirely absent, or its
document fails to parse, each of `getPrivacyLevel`, `getBlockingMode` and
`getLogFilePathTOML` returns `false` ("not found") with the configuration
state untouched. -/
theorem C9_preload_queries_tolerate_absent_file (file : Option (List Char))
    (st : FTLConfig) (h : parseTOML file = none) :
    getPrivacyLevel file st = (false, st) ∧
    getBlockingMode file st = (false, st) ∧
    getLogFilePathTOML file st = (false, st) := by
  refine ⟨?_, ?_, ?_⟩ <;> simp only [getPrivacyLevel, getBlockingMode,
    getLogFilePathTOML, h]

/-- Witness for `C9_preload_queries_tolerate_absent_file`: the absent
file, and a file whose document has a syntax error (`[`). -/
theorem C9_preload_queries_witness :
    (getPrivacyLevel none sampleConfig = (false, sampleConfig) ∧
     getBlockingMode none sampleConfig = (false, sampleConfig) ∧
     getLogFilePathTOML none sampleConfig = (false, sampleConfig)) ∧
    (getPrivacyLevel (some ['[']) sampleConfig = (false, sampleConfig) ∧
     getBlockingMode (some ['[']) sampleConfig = (false, sampleConfig) ∧
     getLogFilePathTOML (some ['[']) sampleConfig = (false, sampleConfig)) :=
  ⟨C9_preload_queries_tolerate_absent_file none sampleConfig rfl,
   C9_preload_queries_tolerate_absent_file (some ['[']) sampleConfig (by decide)⟩
